import Mathlib

/-!
# HD44780 LCD driver (lcd.c / lcd.h): shallow embedding and verified properties

The driver bit-bangs a 4-bit parallel bus through the AVR registers `DDRA`,
`PORTA` and `PINA`.  The embedding keeps the two writable registers as 8-bit
naturals, threads them through every statement of the C code, and logs every
register access and every delay in a chronological event trace.

Model conventions
* `uint8_t` values are naturals; a register write is reduced modulo 256.
* `HD44780_USE_RW_PIN` is the boolean parameter `rw` (the header ships `1`).
* The device is the stream `pins : Nat → Nat`: `pins k` is the value of `PINA`
  at the `k`-th read the program performs.
* The busy-flag loop of `write8bits` has no bound in the C code; the embedding
  gives it a budget of read cycles and reports `Res.spin` when the budget is
  used up while the loop is still running.
-/

namespace HD44780

/-! ## Configuration (lcd.h) -/

def HD44780_ROWS : Nat := 2
def HD44780_COLUMNS : Nat := 16

def HD44780_IO_D4 : Nat := 3
def HD44780_IO_D5 : Nat := 4
def HD44780_IO_D6 : Nat := 5
def HD44780_IO_D7 : Nat := 6
def HD44780_IO_RS : Nat := 0
def HD44780_IO_RW : Nat := 1
def HD44780_IO_E : Nat := 2

/-! ## Command constants (lcd.c) -/

def CMD_CLEARDISPLAY : Nat := 0x01
def CMD_RETURNHOME : Nat := 0x02
def CMD_ENTRYMODESET : Nat := 0x04
def CMD_DISPLAYCONTROL : Nat := 0x08
def CMD_CURSORSHIFT : Nat := 0x10
def CMD_FUNCTIONSET : Nat := 0x20
def CMD_SETCGRAMADDR : Nat := 0x40
def CMD_SETDDRAMADDR : Nat := 0x80

def CMD_ENTRYRIGHT : Nat := 0x02
def CMD_ENTRYLEFT : Nat := 0x00
def CMD_ENTRYSHIFTINCREMENT : Nat := 0x00
def CMD_ENTRYSHIFTDECREMENT : Nat := 0x01

def CMD_DISPLAYON : Nat := 0x04
def CMD_DISPLAYOFF : Nat := 0x00
def CMD_CURSORON : Nat := 0x02
def CMD_CURSOROFF : Nat := 0x00
def CMD_BLINKON : Nat := 0x01
def CMD_BLINKOFF : Nat := 0x00

def CMD_DISPLAYMOVE : Nat := 0x08
def CMD_CURSORMOVE : Nat := 0x00
def CMD_MOVERIGHT : Nat := 0x04
def CMD_MOVELEFT : Nat := 0x00

def CMD_8BITMODE : Nat := 0x10
def CMD_4BITMODE : Nat := 0x00
def CMD_2LINE : Nat := 0x08
def CMD_1LINE : Nat := 0x00
def CMD_5x10DOTS : Nat := 0x04
def CMD_5x8DOTS : Nat := 0x00

def CMD_BUSYFLAG : Nat := 0x80

def DDRAM_LA1 : Nat := 0x00
def DDRAM_LA2 : Nat := 0x40

/-! ## Machine state and trace -/

/-- One observable action of the program on the hardware. -/
inductive Event where
  | ddr (v : Nat)
  | port (v : Nat)
  | pin (v : Nat)
  | delay_us (n : Nat)
  | delay_ms (n : Nat)
  deriving DecidableEq, Repr

/-- Registers of port A, the number of `PINA` reads done so far, and the log. -/
structure Mcu where
  ddr : Nat
  port : Nat
  rd : Nat
  trace : List Event

/-- Outcome of a driver function: it returned, or it is still inside the
busy-flag loop after the budget of read cycles. -/
inductive Res where
  | ret (s : Mcu)
  | spin (s : Mcu)

/-- State reached, whether or not the function returned. -/
def Res.st : Res → Mcu
  | Res.ret s => s
  | Res.spin s => s

/-- True when the function returned. -/
def Res.returned : Res → Bool
  | Res.ret _ => true
  | Res.spin _ => false

/-- Sequencing: the continuation runs only after a return. -/
def Res.bind (r : Res) (f : Mcu → Res) : Res :=
  match r with
  | Res.ret s => f s
  | Res.spin s => Res.spin s

/-- Register update `r |= (1 << n)` on an 8-bit register. -/
def bitSet (r n : Nat) : Nat := (r ||| (1 <<< n)) % 256

/-- Register update `r &= ~(1 << n)` on an 8-bit register. -/
def bitClr (r n : Nat) : Nat := (r &&& (255 ^^^ (1 <<< n))) % 256

/-- The register after `if(b) r |= (1 << n); else r &= ~(1 << n);`. -/
def putBit (b : Bool) (r n : Nat) : Nat := if b then bitSet r n else bitClr r n

def wrDDR (s : Mcu) (v : Nat) : Mcu :=
  { s with ddr := v, trace := s.trace ++ [Event.ddr v] }

def wrPORT (s : Mcu) (v : Nat) : Mcu :=
  { s with port := v, trace := s.trace ++ [Event.port v] }

/-- One read of `PINA` masked with `1 << n`; the device supplies the value. -/
def rdPIN (pins : Nat → Nat) (n : Nat) (s : Mcu) : Nat × Mcu :=
  ((pins s.rd % 256) &&& (1 <<< n),
   { s with rd := s.rd + 1, trace := s.trace ++ [Event.pin (pins s.rd % 256)] })

/-- Library call `_delay_us(n)`. -/
def delay_us (n : Nat) (s : Mcu) : Mcu :=
  { s with trace := s.trace ++ [Event.delay_us n] }

/-- Library call `_delay_ms(n)`. -/
def delay_ms (n : Nat) (s : Mcu) : Mcu :=
  { s with trace := s.trace ++ [Event.delay_ms n] }

/-! ## Pin macros (lcd.c, lines 84-106) -/

def SET_RS (s : Mcu) : Mcu := wrPORT s (bitSet s.port HD44780_IO_RS)
def CLR_RS (s : Mcu) : Mcu := wrPORT s (bitClr s.port HD44780_IO_RS)
def SET_RW (s : Mcu) : Mcu := wrPORT s (bitSet s.port HD44780_IO_RW)
def CLR_RW (s : Mcu) : Mcu := wrPORT s (bitClr s.port HD44780_IO_RW)
def SET_E (s : Mcu) : Mcu := wrPORT s (bitSet s.port HD44780_IO_E)
def CLR_E (s : Mcu) : Mcu := wrPORT s (bitClr s.port HD44780_IO_E)

def SET_D4 (s : Mcu) : Mcu := wrPORT s (bitSet s.port HD44780_IO_D4)
def CLR_D4 (s : Mcu) : Mcu := wrPORT s (bitClr s.port HD44780_IO_D4)
def SET_D5 (s : Mcu) : Mcu := wrPORT s (bitSet s.port HD44780_IO_D5)
def CLR_D5 (s : Mcu) : Mcu := wrPORT s (bitClr s.port HD44780_IO_D5)
def SET_D6 (s : Mcu) : Mcu := wrPORT s (bitSet s.port HD44780_IO_D6)
def CLR_D6 (s : Mcu) : Mcu := wrPORT s (bitClr s.port HD44780_IO_D6)
def SET_D7 (s : Mcu) : Mcu := wrPORT s (bitSet s.port HD44780_IO_D7)
def CLR_D7 (s : Mcu) : Mcu := wrPORT s (bitClr s.port HD44780_IO_D7)

def READ_D4 (pins : Nat → Nat) (s : Mcu) : Nat × Mcu := rdPIN pins HD44780_IO_D4 s
def READ_D5 (pins : Nat → Nat) (s : Mcu) : Nat × Mcu := rdPIN pins HD44780_IO_D5 s
def READ_D6 (pins : Nat → Nat) (s : Mcu) : Nat × Mcu := rdPIN pins HD44780_IO_D6 s
def READ_D7 (pins : Nat → Nat) (s : Mcu) : Nat × Mcu := rdPIN pins HD44780_IO_D7 s

/-! ## Transfer layer (lcd.c, lines 108-211) -/

/-- `read8bits`: data lines to input, RW high, two read strobes; the first
samples bits 4..7 of the result and the second bits 0..3. -/
def read8bits (pins : Nat → Nat) (s : Mcu) : Nat × Mcu :=
  let result := 0
  let s := wrDDR s (bitClr s.ddr HD44780_IO_D4)
  let s := wrDDR s (bitClr s.ddr HD44780_IO_D5)
  let s := wrDDR s (bitClr s.ddr HD44780_IO_D6)
  let s := wrDDR s (bitClr s.ddr HD44780_IO_D7)
  let s := SET_RW s
  let s := SET_E s
  let s := delay_us 2 s
  let a := READ_D4 pins s
  let result := (if a.1 ≠ 0 then (· ||| 16) else id) result
  let b := READ_D5 pins a.2
  let result := (if b.1 ≠ 0 then (· ||| 32) else id) result
  let c := READ_D6 pins b.2
  let result := (if c.1 ≠ 0 then (· ||| 64) else id) result
  let d := READ_D7 pins c.2
  let result := (if d.1 ≠ 0 then (· ||| 128) else id) result
  let s := CLR_E d.2
  let s := SET_E s
  let s := delay_us 2 s
  let a := READ_D4 pins s
  let result := (if a.1 ≠ 0 then (· ||| 1) else id) result
  let b := READ_D5 pins a.2
  let result := (if b.1 ≠ 0 then (· ||| 2) else id) result
  let c := READ_D6 pins b.2
  let result := (if c.1 ≠ 0 then (· ||| 4) else id) result
  let d := READ_D7 pins c.2
  let result := (if d.1 ≠ 0 then (· ||| 8) else id) result
  let s := CLR_E d.2
  (result, s)

/-- The loop `while(read8bits() & CMD_BUSYFLAG);` of `write8bits`, with a
budget of read cycles. -/
def busyWait (pins : Nat → Nat) : Nat → Mcu → Res
  | 0, s => Res.spin s
  | fuel + 1, s =>
    let r := read8bits pins s
    if r.1 &&& CMD_BUSYFLAG ≠ 0 then busyWait pins fuel r.2 else Res.ret r.2

/-- `write8bits`: data lines to output, RW low when wired, high nibble and a
strobe, low nibble and a strobe, then the completion wait of the build. -/
def write8bits (rw : Bool) (pins : Nat → Nat) (fuel : Nat) (data : Nat) (s : Mcu) : Res :=
  let s := wrDDR s (bitSet s.ddr HD44780_IO_D4)
  let s := wrDDR s (bitSet s.ddr HD44780_IO_D5)
  let s := wrDDR s (bitSet s.ddr HD44780_IO_D6)
  let s := wrDDR s (bitSet s.ddr HD44780_IO_D7)
  let s := (if rw then CLR_RW else id) s
  let s := (if data &&& 16 ≠ 0 then SET_D4 else CLR_D4) s
  let s := (if data &&& 32 ≠ 0 then SET_D5 else CLR_D5) s
  let s := (if data &&& 64 ≠ 0 then SET_D6 else CLR_D6) s
  let s := (if data &&& 128 ≠ 0 then SET_D7 else CLR_D7) s
  let s := CLR_E (delay_us 2 (SET_E s))
  let s := (if data &&& 1 ≠ 0 then SET_D4 else CLR_D4) s
  let s := (if data &&& 2 ≠ 0 then SET_D5 else CLR_D5) s
  let s := (if data &&& 4 ≠ 0 then SET_D6 else CLR_D6) s
  let s := (if data &&& 8 ≠ 0 then SET_D7 else CLR_D7) s
  let s := CLR_E (delay_us 2 (SET_E s))
  if rw then busyWait pins fuel (CLR_RS s) else Res.ret (delay_us 120 s)

def write_cmd (rw : Bool) (pins : Nat → Nat) (fuel : Nat) (cmd : Nat) (s : Mcu) : Res :=
  write8bits rw pins fuel cmd (CLR_RS s)

def write_data (rw : Bool) (pins : Nat → Nat) (fuel : Nat) (data : Nat) (s : Mcu) : Res :=
  write8bits rw pins fuel data (SET_RS s)

/-! ## Public operations (lcd.c, lines 226-444) -/

/-- `lcd_init`: pin setup, the forced-reset strobes, then the configuration
commands. -/
def lcd_init (rw : Bool) (pins : Nat → Nat) (fuel : Nat) (s : Mcu) : Res :=
  let s := wrDDR s (bitSet s.ddr HD44780_IO_D4)
  let s := wrDDR s (bitSet s.ddr HD44780_IO_D5)
  let s := wrDDR s (bitSet s.ddr HD44780_IO_D6)
  let s := wrDDR s (bitSet s.ddr HD44780_IO_D7)
  let s := wrDDR s (bitSet s.ddr HD44780_IO_RS)
  let s := wrDDR s (bitSet s.ddr HD44780_IO_E)
  let s := (if rw then fun t => wrDDR t (bitSet t.ddr HD44780_IO_RW) else id) s
  let s := CLR_E (CLR_RS s)
  let s := (if rw then CLR_RW else id) s
  let s := delay_ms 100 s
  let s := SET_D4 (SET_D5 (CLR_D6 (CLR_D7 s)))
  let s := (List.range 3).foldl
    (fun t _ => delay_ms 5 (CLR_E (delay_us 2 (SET_E t)))) s
  let s := CLR_D4 s
  let s := delay_us 100 (CLR_E (delay_us 2 (SET_E s)))
  (write_cmd rw pins fuel
    (CMD_FUNCTIONSET ||| CMD_4BITMODE ||| CMD_2LINE ||| CMD_5x8DOTS) s).bind fun s =>
  (write_cmd rw pins fuel
    (CMD_DISPLAYCONTROL ||| CMD_DISPLAYOFF ||| CMD_CURSOROFF ||| CMD_BLINKOFF) s).bind fun s =>
  (write_cmd rw pins fuel CMD_CLEARDISPLAY s).bind fun s =>
  let s := delay_ms 5 s
  (write_cmd rw pins fuel
    (CMD_ENTRYMODESET ||| CMD_ENTRYRIGHT ||| CMD_ENTRYSHIFTINCREMENT) s).bind fun s =>
  write_cmd rw pins fuel
    (CMD_DISPLAYCONTROL ||| CMD_DISPLAYON ||| CMD_CURSOROFF ||| CMD_BLINKOFF) s

def lcd_clear (rw : Bool) (pins : Nat → Nat) (fuel : Nat) (s : Mcu) : Res :=
  (write_cmd rw pins fuel CMD_CLEARDISPLAY s).bind fun s => Res.ret (delay_ms 5 s)

def lcd_home (rw : Bool) (pins : Nat → Nat) (fuel : Nat) (s : Mcu) : Res :=
  (write_cmd rw pins fuel CMD_RETURNHOME s).bind fun s => Res.ret (delay_ms 5 s)

/-- `lcd_setCursor` for `HD44780_ROWS == 2`: the switch has the cases
`default`/`0` and `1` only; the sum is converted to `uint8_t` at the call. -/
def lcd_setCursor (rw : Bool) (pins : Nat → Nat) (fuel : Nat) (x y : Nat) (s : Mcu) : Res :=
  let y := match y with
    | 1 => DDRAM_LA2
    | _ => DDRAM_LA1
  write_cmd rw pins fuel ((CMD_SETDDRAMADDR + x + y) % 256) s

def lcd_displayOnOff (rw : Bool) (pins : Nat → Nat) (fuel : Nat) (onoff : Nat) (s : Mcu) : Res :=
  let onoff := if onoff ≠ 0 then CMD_DISPLAYON else CMD_DISPLAYOFF
  write_cmd rw pins fuel (CMD_DISPLAYCONTROL ||| onoff ||| CMD_CURSOROFF ||| CMD_BLINKOFF) s

def lcd_cursorOnOff (rw : Bool) (pins : Nat → Nat) (fuel : Nat) (onoff : Nat) (s : Mcu) : Res :=
  let onoff := if onoff ≠ 0 then CMD_CURSORON else CMD_CURSOROFF
  write_cmd rw pins fuel (CMD_DISPLAYCONTROL ||| CMD_DISPLAYON ||| onoff ||| CMD_BLINKOFF) s

def lcd_cursorBlinkOnOff (rw : Bool) (pins : Nat → Nat) (fuel : Nat) (onoff : Nat) (s : Mcu) :
    Res :=
  let onoff := if onoff ≠ 0 then CMD_BLINKON else CMD_BLINKOFF
  write_cmd rw pins fuel (CMD_DISPLAYCONTROL ||| CMD_DISPLAYON ||| CMD_CURSORON ||| onoff) s

def lcd_codmtlor (rw : Bool) (pins : Nat → Nat) (fuel : Nat) (cod lor : Nat) (s : Mcu) : Res :=
  let cod := if cod ≠ 0 then CMD_DISPLAYMOVE else CMD_CURSORMOVE
  let lor := if lor ≠ 0 then CMD_MOVERIGHT else CMD_MOVELEFT
  write_cmd rw pins fuel (CMD_CURSORSHIFT ||| cod ||| lor) s

def lcd_emlordoi (rw : Bool) (pins : Nat → Nat) (fuel : Nat) (lor doi : Nat) (s : Mcu) : Res :=
  let lor := if lor ≠ 0 then CMD_ENTRYRIGHT else CMD_ENTRYLEFT
  let doi := if doi ≠ 0 then CMD_ENTRYSHIFTINCREMENT else CMD_ENTRYSHIFTDECREMENT
  write_cmd rw pins fuel (CMD_ENTRYMODESET ||| lor ||| doi) s

/-- Value of a `char` object whose byte is `b`. The repository sets no compiler
flag, and the `char` of avr-gcc is signed by default: the value lies in
-128..127, a byte of 0x80 and above being negative. -/
def charVal (b : Nat) : Int :=
  if b % 256 < 128 then ((b % 256 : Nat) : Int) else ((b % 256 : Nat) : Int) - 256

/-- Conversion of an `int` value to `uint8_t`. -/
def toByte (v : Int) : Nat := (v % 256).toNat

/-- `lcd_char`; the argument is the byte of the `char` passed. The comparison
and the mask are done on the promoted `int` value of the signed `char`, the
result is converted back to `char`, and to `uint8_t` at the call of
`write_data`. -/
def lcd_char (rw : Bool) (pins : Nat → Nat) (fuel : Nat) (c : Nat) (s : Mcu) : Res :=
  let c : Int := charVal c
  let c : Int := if c ≥ 0x80 ∧ c ≤ 0x87 then charVal (toByte c &&& 0x07) else c
  write_data rw pins fuel (toByte c) s

/-- `lcd_str`; the list holds the bytes at `str`, a zero byte or the end of
the list being the terminating NUL. -/
def lcd_str (rw : Bool) (pins : Nat → Nat) (fuel : Nat) : List Nat → Mcu → Res
  | [], s => Res.ret s
  | c :: cs, s =>
    if c ≠ 0 then (lcd_char rw pins fuel c s).bind (lcd_str rw pins fuel cs) else Res.ret s

/-- `lcd_str_P`; same loop, the bytes come from flash. -/
def lcd_str_P (rw : Bool) (pins : Nat → Nat) (fuel : Nat) : List Nat → Mcu → Res
  | [], s => Res.ret s
  | c :: cs, s =>
    if c ≠ 0 then (lcd_char rw pins fuel c s).bind (lcd_str_P rw pins fuel cs) else Res.ret s

/-- `lcd_str_E`; the bytes come from EEPROM; each is converted to the signed
`char` `c` and the loop ends when `(c == '\0') || (c == 0xFF)`. -/
def lcd_str_E (rw : Bool) (pins : Nat → Nat) (fuel : Nat) : List Nat → Mcu → Res
  | [], s => Res.ret s
  | c :: cs, s =>
    if charVal c = 0 ∨ charVal c = 0xFF then Res.ret s
    else (lcd_char rw pins fuel c s).bind (lcd_str_E rw pins fuel cs)

/-- Digits of the avr-libc conversions `utoa`/`ultoa` (and `ltoa` with a
radix other than ten), as character codes; an external library routine. -/
def utoa (value radix : Nat) : List Nat := (Nat.toDigits radix value).map Char.toNat

/-- Characters of the avr-libc conversions `itoa`/`ltoa` with radix ten: a
minus sign for a negative value, then the digits; an external library routine. -/
def itoa (value : Int) : List Nat :=
  if value < 0 then 45 :: utoa value.natAbs 10 else utoa value.natAbs 10

def lcd_int16 (rw : Bool) (pins : Nat → Nat) (fuel : Nat) (value : Int) (s : Mcu) : Res :=
  lcd_str rw pins fuel (itoa value) s

def lcd_uint16 (rw : Bool) (pins : Nat → Nat) (fuel : Nat) (value : Nat) (s : Mcu) : Res :=
  lcd_str rw pins fuel (utoa value 10) s

def lcd_int32 (rw : Bool) (pins : Nat → Nat) (fuel : Nat) (value : Int) (s : Mcu) : Res :=
  lcd_str rw pins fuel (itoa value) s

def lcd_uint32 (rw : Bool) (pins : Nat → Nat) (fuel : Nat) (value : Nat) (s : Mcu) : Res :=
  lcd_str rw pins fuel (utoa value 10) s

def lcd_hex (rw : Bool) (pins : Nat → Nat) (fuel : Nat) (value : Nat) (s : Mcu) : Res :=
  lcd_str rw pins fuel (utoa value 16) s

/-- The loop `for(i=0; i<=7; i++) write_data(*pattern++)`; `pattern k` is the
byte at offset `k` from the pointer. -/
def sendPattern (rw : Bool) (pins : Nat → Nat) (fuel : Nat) (pattern : Nat → Nat) :
    List Nat → Mcu → Res
  | [], s => Res.ret s
  | i :: is, s =>
    (write_data rw pins fuel (pattern i) s).bind (sendPattern rw pins fuel pattern is)

def lcd_createChar (rw : Bool) (pins : Nat → Nat) (fuel : Nat) (code : Nat)
    (pattern : Nat → Nat) (s : Mcu) : Res :=
  (write_cmd rw pins fuel (CMD_SETCGRAMADDR ||| ((code &&& 0x07) <<< 3)) s).bind
    (sendPattern rw pins fuel pattern (List.range 8))

def lcd_createChar_P (rw : Bool) (pins : Nat → Nat) (fuel : Nat) (code : Nat)
    (pattern : Nat → Nat) (s : Mcu) : Res :=
  (write_cmd rw pins fuel (CMD_SETCGRAMADDR ||| ((code &&& 0x07) <<< 3)) s).bind
    (sendPattern rw pins fuel pattern (List.range 8))

def lcd_createChar_E (rw : Bool) (pins : Nat → Nat) (fuel : Nat) (code : Nat)
    (pattern : Nat → Nat) (s : Mcu) : Res :=
  (write_cmd rw pins fuel (CMD_SETCGRAMADDR ||| ((code &&& 0x07) <<< 3)) s).bind
    (sendPattern rw pins fuel pattern (List.range 8))

/-- The public functions of lcd.h with their arguments. -/
inductive Op where
  | init
  | clear
  | home
  | setCursor (x y : Nat)
  | displayOnOff (onoff : Nat)
  | cursorOnOff (onoff : Nat)
  | cursorBlinkOnOff (onoff : Nat)
  | codmtlor (cod lor : Nat)
  | emlordoi (lor doi : Nat)
  | char (c : Nat)
  | str (cs : List Nat)
  | str_P (cs : List Nat)
  | str_E (cs : List Nat)
  | int16 (value : Int)
  | uint16 (value : Nat)
  | int32 (value : Int)
  | uint32 (value : Nat)
  | hex (value : Nat)
  | createChar (code : Nat) (pattern : Nat → Nat)
  | createChar_P (code : Nat) (pattern : Nat → Nat)
  | createChar_E (code : Nat) (pattern : Nat → Nat)

/-- One call of a public function. -/
def Op.run (rw : Bool) (pins : Nat → Nat) (fuel : Nat) : Op → Mcu → Res
  | Op.init, s => lcd_init rw pins fuel s
  | Op.clear, s => lcd_clear rw pins fuel s
  | Op.home, s => lcd_home rw pins fuel s
  | Op.setCursor x y, s => lcd_setCursor rw pins fuel x y s
  | Op.displayOnOff v, s => lcd_displayOnOff rw pins fuel v s
  | Op.cursorOnOff v, s => lcd_cursorOnOff rw pins fuel v s
  | Op.cursorBlinkOnOff v, s => lcd_cursorBlinkOnOff rw pins fuel v s
  | Op.codmtlor c l, s => lcd_codmtlor rw pins fuel c l s
  | Op.emlordoi l d, s => lcd_emlordoi rw pins fuel l d s
  | Op.char c, s => lcd_char rw pins fuel c s
  | Op.str cs, s => lcd_str rw pins fuel cs s
  | Op.str_P cs, s => lcd_str_P rw pins fuel cs s
  | Op.str_E cs, s => lcd_str_E rw pins fuel cs s
  | Op.int16 v, s => lcd_int16 rw pins fuel v s
  | Op.uint16 v, s => lcd_uint16 rw pins fuel v s
  | Op.int32 v, s => lcd_int32 rw pins fuel v s
  | Op.uint32 v, s => lcd_uint32 rw pins fuel v s
  | Op.hex v, s => lcd_hex rw pins fuel v s
  | Op.createChar c p, s => lcd_createChar rw pins fuel c p s
  | Op.createChar_P c p, s => lcd_createChar_P rw pins fuel c p s
  | Op.createChar_E c p, s => lcd_createChar_E rw pins fuel c p s

/-! ## Bus-level view of a trace

The control lines RS, RW, E are read off `PORTA` (they are outputs once
`lcd_init` ran); a data line carries the port bit when its direction bit makes
it an output. A strobe is a rise of E followed by a fall of E. -/

/-- Four bits as a nibble, least significant first. -/
def nibOf (b0 b1 b2 b3 : Bool) : Nat :=
  (if b0 then 1 else 0) + (if b1 then 2 else 0) + (if b2 then 4 else 0) + (if b3 then 8 else 0)

/-- Lines at a strobe: RS, RW (low when the pin is not wired), the nibble the
microcontroller drives on D4..D7 (D4 = bit 0), the direction bits of D4..D7
(15 = all outputs, 0 = all inputs) and the time in microseconds E stayed high. -/
structure Strobe where
  rs : Bool
  rw : Bool
  nib : Nat
  dir : Nat
  hold : Nat
  deriving DecidableEq, Repr

/-- What the bus sees: a strobe, or a delay executed while E is low. -/
inductive BusEv where
  | strobe (p : Strobe)
  | wait (us : Nat)
  deriving DecidableEq, Repr

/-- Line levels for register contents `ddr`, `port`. -/
def snap (rw : Bool) (ddr port : Nat) : Strobe :=
  { rs := port.testBit HD44780_IO_RS
    rw := rw && port.testBit HD44780_IO_RW
    nib := nibOf (ddr.testBit HD44780_IO_D4 && port.testBit HD44780_IO_D4)
      (ddr.testBit HD44780_IO_D5 && port.testBit HD44780_IO_D5)
      (ddr.testBit HD44780_IO_D6 && port.testBit HD44780_IO_D6)
      (ddr.testBit HD44780_IO_D7 && port.testBit HD44780_IO_D7)
    dir := nibOf (ddr.testBit HD44780_IO_D4) (ddr.testBit HD44780_IO_D5)
      (ddr.testBit HD44780_IO_D6) (ddr.testBit HD44780_IO_D7)
    hold := 0 }

/-- Replay state: current registers and the strobe in progress, if any. -/
structure Scan where
  ddr : Nat
  port : Nat
  pend : Option Strobe
  deriving DecidableEq, Repr

/-- Replay of one event: the new replay state and the bus events completed. -/
def busStep (rw : Bool) (c : Scan) : Event → Scan × List BusEv
  | Event.ddr v => ({ c with ddr := v }, [])
  | Event.port v =>
    if !c.port.testBit HD44780_IO_E && v.testBit HD44780_IO_E then
      ({ c with port := v, pend := some (snap rw c.ddr v) }, [])
    else if c.port.testBit HD44780_IO_E && !v.testBit HD44780_IO_E then
      ({ c with port := v, pend := none },
        match c.pend with
        | some p => [BusEv.strobe p]
        | none => [])
    else ({ c with port := v }, [])
  | Event.pin _ => (c, [])
  | Event.delay_us n =>
    match c.pend with
    | some p => ({ c with pend := some { p with hold := p.hold + n } }, [])
    | none => (c, [BusEv.wait n])
  | Event.delay_ms n =>
    match c.pend with
    | some p => ({ c with pend := some { p with hold := p.hold + 1000 * n } }, [])
    | none => (c, [BusEv.wait (1000 * n)])

/-- Replay of a trace. -/
def busScan (rw : Bool) : Scan → List Event → Scan × List BusEv
  | c, [] => (c, [])
  | c, e :: es =>
    let r := busStep rw c e
    let q := busScan rw r.1 es
    (q.1, r.2 ++ q.2)

/-- The events a run from `s` to `t` appended to the log. -/
def emitted (s t : Mcu) : List Event := t.trace.drop s.trace.length

/-- Bus view of a run from `s` to `t`. -/
def busView (rw : Bool) (s t : Mcu) : List BusEv :=
  (busScan rw ⟨s.ddr, s.port, none⟩ (emitted s t)).2

/-- Shape check of the enable pulses of a trace. The state is the current
port value and, inside a pulse, the microseconds elapsed since E rose. A
direction write or a port write that keeps E high inside a pulse, a fall of E
before 2 microseconds, and a fall of E that changes another bus line are
rejected. -/
def pulseStep (c : Nat × Option Nat) : Event → Option (Nat × Option Nat)
  | Event.ddr _ => if c.2.isSome then none else some c
  | Event.port v =>
    match c.2 with
    | none =>
      if !c.1.testBit HD44780_IO_E && v.testBit HD44780_IO_E then some (v, some 0)
      else some (v, none)
    | some t =>
      if !v.testBit HD44780_IO_E && 2 ≤ t
          && v.testBit HD44780_IO_RS == c.1.testBit HD44780_IO_RS
          && v.testBit HD44780_IO_RW == c.1.testBit HD44780_IO_RW
          && v.testBit HD44780_IO_D4 == c.1.testBit HD44780_IO_D4
          && v.testBit HD44780_IO_D5 == c.1.testBit HD44780_IO_D5
          && v.testBit HD44780_IO_D6 == c.1.testBit HD44780_IO_D6
          && v.testBit HD44780_IO_D7 == c.1.testBit HD44780_IO_D7 then some (v, none)
      else none
  | Event.pin _ => some c
  | Event.delay_us n =>
    match c.2 with
    | none => some c
    | some t => some (c.1, some (t + n))
  | Event.delay_ms n =>
    match c.2 with
    | none => some c
    | some t => some (c.1, some (t + 1000 * n))

/-- Shape check of a whole trace. -/
def pulseScan : Nat × Option Nat → List Event → Option (Nat × Option Nat)
  | c, [] => some c
  | c, e :: es =>
    match pulseStep c e with
    | none => none
    | some d => pulseScan d es

/-- A run from `s` to `t`: the log grew by some events whose replay, started
outside a pulse, ends outside a pulse with E low, shows `view` on the bus, and
passes the pulse shape check. -/
def Runs (rw : Bool) (s t : Mcu) (view : List BusEv) : Prop :=
  ∃ evs, t.trace = s.trace ++ evs ∧
    busScan rw ⟨s.ddr, s.port, none⟩ evs = (⟨t.ddr, t.port, none⟩, view) ∧
    pulseScan (s.port, none) evs = some (t.port, none) ∧
    t.port.testBit HD44780_IO_E = false

/-- A byte transfer: `write_data` when `rs` is set, `write_cmd` otherwise. -/
def transfer (rw : Bool) (pins : Nat → Nat) (fuel : Nat) (rs : Bool) (v : Nat) (s : Mcu) : Res :=
  if rs then write_data rw pins fuel v s else write_cmd rw pins fuel v s

/-- The D7 sample of the first read strobe of a `read8bits` call that starts
at read number `rd`: the busy flag of that status read. -/
def busyAt (pins : Nat → Nat) (rd : Nat) : Bool :=
  decide ((pins (rd + 3) % 256) &&& (1 <<< HD44780_IO_D7) ≠ 0)

/-- Number of `read8bits` cycles the busy-flag loop runs within the budget
`fuel`, the first cycle starting at read number `rd`. -/
def pollCycles (pins : Nat → Nat) : Nat → Nat → Nat
  | 0, _ => 0
  | fuel + 1, rd => if busyAt pins rd then 1 + pollCycles pins fuel (rd + 8) else 1

/-- True when one of the first `fuel` status reads from read number `rd` on
has the busy flag clear. -/
def pollReady (pins : Nat → Nat) : Nat → Nat → Bool
  | 0, _ => false
  | fuel + 1, rd => if busyAt pins rd then pollReady pins fuel (rd + 8) else true

/-- A write strobe: RW low, data lines driven as outputs, E high for 2 us. -/
def writeStrobe (rs : Bool) (nib : Nat) : Strobe := ⟨rs, false, nib, 15, 2⟩

/-- A read strobe of the poll: RS low, RW high, data lines released. -/
def readStrobe : Strobe := ⟨false, true, 0, 0, 2⟩

/-- Bus view of one byte transfer. -/
def transferView (rw : Bool) (pins : Nat → Nat) (fuel rd : Nat) (rs : Bool) (v : Nat) :
    List BusEv :=
  [BusEv.strobe (writeStrobe rs ((v >>> 4) &&& 0xF)), BusEv.strobe (writeStrobe rs (v &&& 0xF))]
    ++ (if rw then List.replicate (2 * pollCycles pins fuel rd) (BusEv.strobe readStrobe)
        else [BusEv.wait 120])

/-- Read number reached after one byte transfer. -/
def transferRd (rw : Bool) (pins : Nat → Nat) (fuel rd : Nat) : Nat :=
  if rw then rd + 8 * pollCycles pins fuel rd else rd

/-- A step of a transfer sequence: a byte transfer or a millisecond delay. -/
inductive Step where
  | xfer (rs : Bool) (v : Nat)
  | pause (ms : Nat)
  deriving DecidableEq, Repr

/-- Running a transfer sequence: each step starts when the previous one has
returned. -/
def runPlan (rw : Bool) (pins : Nat → Nat) (fuel : Nat) : List Step → Mcu → Res
  | [], s => Res.ret s
  | Step.xfer rs v :: r, s => (transfer rw pins fuel rs v s).bind (runPlan rw pins fuel r)
  | Step.pause ms :: r, s => runPlan rw pins fuel r (delay_ms ms s)

/-- Bus view of a transfer sequence started at read number `rd`; the sequence
stops at the first transfer whose poll does not finish within the budget. -/
def planView (rw : Bool) (pins : Nat → Nat) (fuel : Nat) : Nat → List Step → List BusEv
  | _, [] => []
  | rd, Step.xfer rs v :: r =>
    transferView rw pins fuel rd rs v ++
      (if !rw || pollReady pins fuel rd then
        planView rw pins fuel (transferRd rw pins fuel rd) r else [])
  | rd, Step.pause ms :: r => BusEv.wait (1000 * ms) :: planView rw pins fuel rd r

/-- True when every poll of the sequence finishes within the budget. -/
def planReady (rw : Bool) (pins : Nat → Nat) (fuel : Nat) : Nat → List Step → Bool
  | _, [] => true
  | rd, Step.xfer _ _ :: r =>
    (!rw || pollReady pins fuel rd) && planReady rw pins fuel (transferRd rw pins fuel rd) r
  | rd, Step.pause _ :: r => planReady rw pins fuel rd r

/-- The strobes of a bus view, in order. -/
def strobesOf : List BusEv → List Strobe
  | [] => []
  | BusEv.strobe p :: r => p :: strobesOf r
  | BusEv.wait _ :: r => strobesOf r

/-- The write strobes (RW low) of a bus view, in order. -/
def writeStrobesOf (l : List BusEv) : List Strobe := (strobesOf l).filter (fun p => !p.rw)

/-- Total delay executed after the last strobe of a bus view. -/
def trailingWait : List BusEv → Nat
  | [] => 0
  | BusEv.strobe _ :: r => trailingWait r
  | BusEv.wait n :: r => if (strobesOf r).isEmpty then n + trailingWait r else trailingWait r

/-- Power-on register contents: everything zero, empty log. -/
def Mcu.reset : Mcu := ⟨0, 0, 0, []⟩

/-- State after `n` consecutive `read8bits` calls. -/
def cycles (pins : Nat → Nat) : Nat → Mcu → Mcu
  | 0, s => s
  | n + 1, s => cycles pins n (read8bits pins s).2

/-- The status byte the `i`-th `read8bits` call of a poll started in `s`
returns (counting from 0). -/
def statusAt (pins : Nat → Nat) (s : Mcu) (i : Nat) : Nat :=
  (read8bits pins (cycles pins i s)).1

/-- For each strobe of a bus view but the first, the total delay executed
since the previous strobe, in microseconds. -/
def gapsFrom : Option Nat → List BusEv → List Nat
  | _, [] => []
  | none, BusEv.strobe _ :: r => gapsFrom (some 0) r
  | some g, BusEv.strobe _ :: r => g :: gapsFrom (some 0) r
  | none, BusEv.wait _ :: r => gapsFrom none r
  | some g, BusEv.wait n :: r => gapsFrom (some (g + n)) r

/-- The straight-line first part of `lcd_init` (lcd.c, lines 228-258): pin
setup, the 100 ms wait and the four raw strobes of the forced reset. -/
def initReset (rw : Bool) (s : Mcu) : Mcu :=
  let s := wrDDR s (bitSet s.ddr HD44780_IO_D4)
  let s := wrDDR s (bitSet s.ddr HD44780_IO_D5)
  let s := wrDDR s (bitSet s.ddr HD44780_IO_D6)
  let s := wrDDR s (bitSet s.ddr HD44780_IO_D7)
  let s := wrDDR s (bitSet s.ddr HD44780_IO_RS)
  let s := wrDDR s (bitSet s.ddr HD44780_IO_E)
  let s := (if rw then fun t => wrDDR t (bitSet t.ddr HD44780_IO_RW) else id) s
  let s := CLR_E (CLR_RS s)
  let s := (if rw then CLR_RW else id) s
  let s := delay_ms 100 s
  let s := SET_D4 (SET_D5 (CLR_D6 (CLR_D7 s)))
  let s := (List.range 3).foldl
    (fun t _ => delay_ms 5 (CLR_E (delay_us 2 (SET_E t)))) s
  let s := CLR_D4 s
  delay_us 100 (CLR_E (delay_us 2 (SET_E s)))

/-- The configuration transfers of `lcd_init` (lcd.c, lines 260-268). -/
def initPlan : List Step :=
  [Step.xfer false 0x28, Step.xfer false 0x08, Step.xfer false 0x01, Step.pause 5,
   Step.xfer false 0x06, Step.xfer false 0x0C]

/-- Bus view of the first part of `lcd_init`. -/
def resetView : List BusEv :=
  [BusEv.wait 100000,
   BusEv.strobe (writeStrobe false 3), BusEv.wait 5000,
   BusEv.strobe (writeStrobe false 3), BusEv.wait 5000,
   BusEv.strobe (writeStrobe false 3), BusEv.wait 5000,
   BusEv.strobe (writeStrobe false 2), BusEv.wait 100]

/-- The write strobes a step puts on the bus. -/
def stepStrobes : Step → List Strobe
  | Step.xfer rs v => [writeStrobe rs ((v >>> 4) &&& 0xF), writeStrobe rs (v &&& 0xF)]
  | Step.pause _ => []

/-- True for a log entry that is a register write. -/
def Event.isWrite : Event → Bool
  | Event.ddr _ => true
  | Event.port _ => true
  | _ => false

/-! ## Simulated controller

The display controller is not part of the repository; this is the test double
the specification asks for (section 8), following the HD44780 interface rules:
the controller latches the data lines at every write strobe; in 8-bit mode one
strobe is one byte (the four upper lines are wired, the four lower ones float
and read as `fl`); in 4-bit mode two strobes make one byte, high nibble first;
the interface width changes only when the byte received with RS low is a
function-set instruction (bits 7..5 = 001), whose bit 4 selects 8-bit (1) or
4-bit (0) operation. -/

/-- Interface state of the simulated controller. -/
inductive Ctrl where
  | eight
  | fourHi
  | fourLo (hi : Nat)
  deriving DecidableEq, Repr

/-- Modelled from the spec: the interface-width rule of the simulated
controller (the device itself is no code of the repository). Interface state
after the byte `b` was received with register select `rs` in a state that
would otherwise continue as `cur`. -/
def ctrlMode (cur : Ctrl) (rs : Bool) (b : Nat) : Ctrl :=
  if !rs && b / 32 == 1 then (if b / 16 % 2 == 1 then Ctrl.eight else Ctrl.fourHi) else cur

/-- Modelled from the spec: the simulated controller latching the data lines
at one write strobe (the device itself is no code of the repository); the new
interface state and the byte decoded, if the strobe completes one. -/
def ctrlStep (fl : Nat) (c : Ctrl) (p : Strobe) : Ctrl × List (Bool × Nat) :=
  match c with
  | Ctrl.eight =>
    (ctrlMode Ctrl.eight p.rs (16 * p.nib + fl % 16), [(p.rs, 16 * p.nib + fl % 16)])
  | Ctrl.fourHi => (Ctrl.fourLo p.nib, [])
  | Ctrl.fourLo hi => (ctrlMode Ctrl.fourHi p.rs (16 * hi + p.nib), [(p.rs, 16 * hi + p.nib)])

/-- The controller fed with a sequence of write strobes: final interface state
and the bytes decoded, in order. -/
def ctrlRun (fl : Nat) : Ctrl → List Strobe → Ctrl × List (Bool × Nat)
  | c, [] => (c, [])
  | c, p :: r =>
    let a := ctrlStep fl c p
    let b := ctrlRun fl a.1 r
    (b.1, a.2 ++ b.2)

/-- The bytes a transfer sequence sends, with their register select. -/
def stepBytes : List Step → List (Bool × Nat)
  | [] => []
  | Step.xfer rs v :: r => (rs, v % 256) :: stepBytes r
  | Step.pause _ :: r => stepBytes r

/-- True when the step is a command that is a function-set instruction
selecting the 8-bit interface (a command byte 0x30..0x3F). -/
def Step.selects8bit : Step → Bool
  | Step.xfer rs v => !rs && v % 256 / 16 == 3
  | Step.pause _ => false

/-- The byte `lcd_char` sends for a `char` whose byte is `c`: the byte itself. -/
def charByte (c : Nat) : Nat := c % 256

/-- The transfers of `lcd_str` and `lcd_str_P`. -/
def strPlan : List Nat → List Step
  | [] => []
  | c :: cs => if c ≠ 0 then Step.xfer true (charByte c) :: strPlan cs else []

/-- The transfers of `lcd_str_E`. -/
def strPlanE : List Nat → List Step
  | [] => []
  | c :: cs => if c % 256 = 0 then [] else Step.xfer true (charByte c) :: strPlanE cs

/-- The transfers of `lcd_createChar` and its flash and EEPROM variants. -/
def createCharPlan (code : Nat) (pattern : Nat → Nat) : List Step :=
  Step.xfer false (0x40 ||| ((code &&& 0x07) <<< 3)) ::
    (List.range 8).map (fun i => Step.xfer true (pattern i))

/-- The transfers and millisecond delays a public function performs (for
`lcd_init`: after its forced-reset part). -/
def Op.plan : Op → List Step
  | Op.init => initPlan
  | Op.clear => [Step.xfer false 0x01, Step.pause 5]
  | Op.home => [Step.xfer false 0x02, Step.pause 5]
  | Op.setCursor x y => [Step.xfer false ((0x80 + x + (if y = 1 then 0x40 else 0x00)) % 256)]
  | Op.displayOnOff v => [Step.xfer false (if v ≠ 0 then 0x0C else 0x08)]
  | Op.cursorOnOff v => [Step.xfer false (if v ≠ 0 then 0x0E else 0x0C)]
  | Op.cursorBlinkOnOff v => [Step.xfer false (if v ≠ 0 then 0x0F else 0x0E)]
  | Op.codmtlor c l =>
    [Step.xfer false (0x10 ||| (if c ≠ 0 then 0x08 else 0x00) ||| (if l ≠ 0 then 0x04 else 0x00))]
  | Op.emlordoi l d =>
    [Step.xfer false (0x04 ||| (if l ≠ 0 then 0x02 else 0x00) ||| (if d ≠ 0 then 0x00 else 0x01))]
  | Op.char c => [Step.xfer true (charByte c)]
  | Op.str cs => strPlan cs
  | Op.str_P cs => strPlan cs
  | Op.str_E cs => strPlanE cs
  | Op.int16 v => strPlan (itoa v)
  | Op.uint16 v => strPlan (utoa v 10)
  | Op.int32 v => strPlan (itoa v)
  | Op.uint32 v => strPlan (utoa v 10)
  | Op.hex v => strPlan (utoa v 16)
  | Op.createChar c p => createCharPlan c p
  | Op.createChar_P c p => createCharPlan c p
  | Op.createChar_E c p => createCharPlan c p

/-- The state in which the transfers of a public function start. -/
def Op.entry (rw : Bool) : Op → Mcu → Mcu
  | Op.init, s => initReset rw s
  | _, s => s

/-- The build-time settings of lcd.h other than the pin assignment:
`HD44780_ROWS`, `HD44780_COLUMNS` and `HD44780_USE_RW_PIN`. -/
structure Config where
  rows : Nat
  columns : Nat
  use_rw : Bool
  deriving DecidableEq, Repr

/-- The shipped settings of lcd.h. -/
def Config.shipped : Config := ⟨HD44780_ROWS, HD44780_COLUMNS, true⟩

/-- The argument of the first `write_cmd` of `lcd_init` (lcd.c, line 261) in a
build with settings `cfg`: the expression names no configuration macro, and
lcd.h has no setting for the glyph matrix. -/
def initFunctionSet (_cfg : Config) : Nat :=
  CMD_FUNCTIONSET ||| CMD_4BITMODE ||| CMD_2LINE ||| CMD_5x8DOTS

/-- The nibble sampled by four consecutive `PINA` reads `a`, `b`, `c`, `d`, of
which `read8bits` keeps the D4, D5, D6 and D7 bit (D4 = bit 0). -/
def sampleNib (a b c d : Nat) : Nat :=
  nibOf (decide (a % 256 &&& (1 <<< HD44780_IO_D4) ≠ 0))
    (decide (b % 256 &&& (1 <<< HD44780_IO_D5) ≠ 0))
    (decide (c % 256 &&& (1 <<< HD44780_IO_D6) ≠ 0))
    (decide (d % 256 &&& (1 <<< HD44780_IO_D7) ≠ 0))

/-- A sequence of calls of public functions, each started when the previous
one has returned. -/
def runOps (rw : Bool) (pins : Nat → Nat) (fuel : Nat) : List Op → Mcu → Res
  | [], s => Res.ret s
  | op :: r, s => (op.run rw pins fuel s).bind (runOps rw pins fuel r)

/-- Direction and RW agree at a strobe: a write strobe (RW low) with D4..D7
all outputs, or a read strobe (RW high) with D4..D7 all inputs. -/
def Strobe.coherent (p : Strobe) : Prop :=
  (p.rw = false ∧ p.dir = 15) ∨ (p.rw = true ∧ p.dir = 0)

/-- Bit 7 of `PORTA` and of `DDRA` is the same in `s` and `t`. -/
def Frame (s t : Mcu) : Prop :=
  t.port.testBit 7 = s.port.testBit 7 ∧ t.ddr.testBit 7 = s.ddr.testBit 7

/-! ## Register bit lemmas -/

@[simp] theorem Res.st_ret (s : Mcu) : (Res.ret s).st = s := rfl
@[simp] theorem Res.st_spin (s : Mcu) : (Res.spin s).st = s := rfl
@[simp] theorem Res.returned_ret (s : Mcu) : (Res.ret s).returned = true := rfl
@[simp] theorem Res.returned_spin (s : Mcu) : (Res.spin s).returned = false := rfl
@[simp] theorem Res.bind_ret (s : Mcu) (f : Mcu → Res) : (Res.ret s).bind f = f s := rfl
@[simp] theorem Res.bind_spin (s : Mcu) (f : Mcu → Res) : (Res.spin s).bind f = Res.spin s := rfl


theorem testBit_bitSet (r n k : Nat) :
    (bitSet r n).testBit k = (decide (k < 8) && (r.testBit k || decide (n = k))) := by
  unfold bitSet
  rw [show (256 : Nat) = 2 ^ 8 from rfl, Nat.testBit_mod_two_pow, Nat.testBit_lor,
    Nat.one_shiftLeft, Nat.testBit_two_pow]

theorem testBit_bitClr (r n k : Nat) :
    (bitClr r n).testBit k = (decide (k < 8) && (r.testBit k && !decide (n = k))) := by
  unfold bitClr
  rw [show (256 : Nat) = 2 ^ 8 from rfl, Nat.testBit_mod_two_pow, Nat.testBit_land,
    Nat.testBit_xor, Nat.one_shiftLeft, Nat.testBit_two_pow,
    show (255 : Nat) = 2 ^ 8 - 1 from rfl, Nat.testBit_two_pow_sub_one]
  by_cases h : k < 8 <;> simp [h]

theorem testBit_putBit (b : Bool) (r n k : Nat) :
    (putBit b r n).testBit k = (decide (k < 8) && (if n = k then b else r.testBit k)) := by
  cases b <;> by_cases e : n = k <;> simp [putBit, e, testBit_bitSet, testBit_bitClr]

/-- The statement `if(c) SET_D4; else CLR_D4;` as one port write. -/
theorem ite_D4 (c : Prop) [Decidable c] (s : Mcu) :
    (if c then SET_D4 else CLR_D4) s = wrPORT s (putBit (decide c) s.port HD44780_IO_D4) := by
  by_cases h : c <;> simp [h, SET_D4, CLR_D4, putBit]

theorem ite_D5 (c : Prop) [Decidable c] (s : Mcu) :
    (if c then SET_D5 else CLR_D5) s = wrPORT s (putBit (decide c) s.port HD44780_IO_D5) := by
  by_cases h : c <;> simp [h, SET_D5, CLR_D5, putBit]

theorem ite_D6 (c : Prop) [Decidable c] (s : Mcu) :
    (if c then SET_D6 else CLR_D6) s = wrPORT s (putBit (decide c) s.port HD44780_IO_D6) := by
  by_cases h : c <;> simp [h, SET_D6, CLR_D6, putBit]

theorem ite_D7 (c : Prop) [Decidable c] (s : Mcu) :
    (if c then SET_D7 else CLR_D7) s = wrPORT s (putBit (decide c) s.port HD44780_IO_D7) := by
  by_cases h : c <;> simp [h, SET_D7, CLR_D7, putBit]

/-! ## Replay lemmas -/

theorem busScan_append (rw : Bool) (c : Scan) (a b : List Event) :
    busScan rw c (a ++ b) =
      ((busScan rw (busScan rw c a).1 b).1, (busScan rw c a).2 ++ (busScan rw (busScan rw c a).1 b).2) := by
  induction a generalizing c with
  | nil => simp [busScan]
  | cons e es ih => simp [busScan, ih, List.append_assoc]

theorem pulseScan_append (c : Nat × Option Nat) (a b : List Event) :
    pulseScan c (a ++ b) = (pulseScan c a).bind (fun d => pulseScan d b) := by
  induction a generalizing c with
  | nil => simp [pulseScan]
  | cons e es ih =>
    simp only [List.cons_append, pulseScan]
    cases pulseStep c e with
    | none => simp
    | some d => simpa using ih d

theorem Runs.refl (rw : Bool) (s : Mcu) (h : s.port.testBit HD44780_IO_E = false) :
    Runs rw s s [] :=
  ⟨[], by simp, by simp [busScan], by simp [pulseScan], h⟩

theorem Runs.trans {rw : Bool} {s t u : Mcu} {v w : List BusEv}
    (h1 : Runs rw s t v) (h2 : Runs rw t u w) : Runs rw s u (v ++ w) := by
  obtain ⟨a, ha, hb, hp, _⟩ := h1
  obtain ⟨b, hb2, hbb, hpp, he⟩ := h2
  refine ⟨a ++ b, ?_, ?_, ?_, he⟩
  · rw [hb2, ha, List.append_assoc]
  · rw [busScan_append, hb]; simp [hbb]
  · rw [pulseScan_append, hp]; simpa using hpp

theorem Runs.emitted_eq {rw : Bool} {s t : Mcu} {v : List BusEv} (h : Runs rw s t v) :
    busView rw s t = v := by
  obtain ⟨a, ha, hb, _, _⟩ := h
  simp [busView, emitted, ha, hb]

theorem Runs.of_emitted {rw : Bool} {s t : Mcu} {v : List BusEv}
    (h1 : t.trace = s.trace ++ emitted s t)
    (h2 : busScan rw ⟨s.ddr, s.port, none⟩ (emitted s t) = (⟨t.ddr, t.port, none⟩, v))
    (h3 : pulseScan (s.port, none) (emitted s t) = some (t.port, none))
    (h4 : t.port.testBit HD44780_IO_E = false) : Runs rw s t v :=
  ⟨emitted s t, h1, h2, h3, h4⟩

theorem land_mod256 (v m : Nat) (hm : m < 256) : v &&& m = (v % 256) &&& m := by
  apply Nat.eq_of_testBit_eq
  intro i
  rw [Nat.testBit_land, Nat.testBit_land, show (256 : Nat) = 2 ^ 8 from rfl,
    Nat.testBit_mod_two_pow]
  by_cases h : i < 8
  · simp [h]
  · have hz : m.testBit i = false := by
      apply Nat.testBit_lt_two_pow
      calc m < 2 ^ 8 := hm
        _ ≤ 2 ^ i := Nat.pow_le_pow_right (by decide) (by omega)
    simp [hz]

set_option maxRecDepth 100000 in
theorem nib_bytes : ∀ w, w < 256 →
    (nibOf (decide (w &&& 16 ≠ 0)) (decide (w &&& 32 ≠ 0)) (decide (w &&& 64 ≠ 0))
        (decide (w &&& 128 ≠ 0)) = (w >>> 4) &&& 0xF
    ∧ nibOf (decide (w &&& 1 ≠ 0)) (decide (w &&& 2 ≠ 0)) (decide (w &&& 4 ≠ 0))
        (decide (w &&& 8 ≠ 0)) = w &&& 0xF
    ∧ (w >>> 4) &&& 0xF = w / 16 % 16 ∧ w &&& 0xF = w % 16) := by
  decide

/-- The four tested bits of the high half are the nibble `(v >> 4) & 0xF`. -/
theorem nib_hi (v : Nat) :
    nibOf (decide (v &&& 16 ≠ 0)) (decide (v &&& 32 ≠ 0)) (decide (v &&& 64 ≠ 0))
      (decide (v &&& 128 ≠ 0)) = (v >>> 4) &&& 0xF := by
  have h := (nib_bytes (v % 256) (Nat.mod_lt _ (by decide))).1
  have e : (v >>> 4) &&& 0xF = ((v % 256) >>> 4) &&& 0xF := by
    rw [show (0xF : Nat) = 2 ^ 4 - 1 from rfl, Nat.and_pow_two_sub_one_eq_mod,
      Nat.and_pow_two_sub_one_eq_mod, Nat.shiftRight_eq_div_pow, Nat.shiftRight_eq_div_pow]
    omega
  rw [e, ← h, land_mod256 v 16 (by decide), land_mod256 v 32 (by decide),
    land_mod256 v 64 (by decide), land_mod256 v 128 (by decide)]

/-- The four tested bits of the low half are the nibble `v & 0xF`. -/
theorem nib_lo (v : Nat) :
    nibOf (decide (v &&& 1 ≠ 0)) (decide (v &&& 2 ≠ 0)) (decide (v &&& 4 ≠ 0))
      (decide (v &&& 8 ≠ 0)) = v &&& 0xF := by
  have h := (nib_bytes (v % 256) (Nat.mod_lt _ (by decide))).2.1
  rw [land_mod256 v 0xF (by decide), ← h, land_mod256 v 1 (by decide),
    land_mod256 v 2 (by decide), land_mod256 v 4 (by decide), land_mod256 v 8 (by decide)]

/-- The write half of `write8bits` (everything before the completion wait),
from a state with E low: two write strobes, RS as found, and E low after. -/
theorem write8bits_strobes (rw : Bool) (pins : Nat → Nat) (v : Nat) (s : Mcu)
    (hE : s.port.testBit HD44780_IO_E = false) :
    (write8bits rw pins 0 v s).st.rd = s.rd ∧
      Runs rw s (write8bits rw pins 0 v s).st
        ([BusEv.strobe (writeStrobe (s.port.testBit HD44780_IO_RS) ((v >>> 4) &&& 0xF)),
          BusEv.strobe (writeStrobe (s.port.testBit HD44780_IO_RS) (v &&& 0xF))]
          ++ (if rw then [] else [BusEv.wait 120])) := by
  have hE2 : s.port.testBit 2 = false := hE
  rw [← nib_hi, ← nib_lo]
  cases rw
  · refine ⟨?_, ?_⟩
    · simp only [write8bits, Res.st, ite_D4, ite_D5, ite_D6, ite_D7, SET_E, CLR_E, wrDDR,
        wrPORT, delay_us, Bool.false_eq_true, if_false, id]
    · apply Runs.of_emitted
      · simp only [write8bits, Res.st, emitted, ite_D4, ite_D5, ite_D6, ite_D7, SET_E, CLR_E,
          wrDDR, wrPORT, delay_us, Bool.false_eq_true, if_false, id, List.append_assoc,
          List.singleton_append, List.cons_append, List.nil_append, List.drop_left]
      · simp only [write8bits, Res.st, emitted, ite_D4, ite_D5, ite_D6, ite_D7, SET_E, CLR_E,
          wrDDR, wrPORT, delay_us, Bool.false_eq_true, if_false, id, List.append_assoc,
          List.singleton_append, List.cons_append, List.nil_append, List.drop_left]
        simp [busScan, busStep, snap, testBit_bitSet, testBit_bitClr, testBit_putBit, hE2,
          nibOf, writeStrobe, HD44780_IO_E, HD44780_IO_RS, HD44780_IO_RW, HD44780_IO_D4,
          HD44780_IO_D5, HD44780_IO_D6, HD44780_IO_D7, -Nat.testBit_zero]
      · simp only [write8bits, Res.st, emitted, ite_D4, ite_D5, ite_D6, ite_D7, SET_E, CLR_E,
          wrDDR, wrPORT, delay_us, Bool.false_eq_true, if_false, id, List.append_assoc,
          List.singleton_append, List.cons_append, List.nil_append, List.drop_left]
        simp [pulseScan, pulseStep, testBit_bitSet, testBit_bitClr, testBit_putBit, hE2,
          HD44780_IO_E, HD44780_IO_RS, HD44780_IO_RW, HD44780_IO_D4, HD44780_IO_D5,
          HD44780_IO_D6, HD44780_IO_D7, -Nat.testBit_zero]
      · simp only [write8bits, Res.st, ite_D4, ite_D5, ite_D6, ite_D7, SET_E, CLR_E,
          wrDDR, wrPORT, delay_us, Bool.false_eq_true, if_false, id]
        simp [testBit_bitSet, testBit_bitClr, HD44780_IO_E]
  · refine ⟨?_, ?_⟩
    · simp only [write8bits, busyWait, Res.st, ite_D4, ite_D5, ite_D6, ite_D7, SET_E, CLR_E,
        CLR_RW, CLR_RS, wrDDR, wrPORT, delay_us, if_true, id]
    · apply Runs.of_emitted
      · simp only [write8bits, busyWait, Res.st, emitted, ite_D4, ite_D5, ite_D6, ite_D7,
          SET_E, CLR_E, CLR_RW, CLR_RS, wrDDR, wrPORT, delay_us, if_true, id,
          List.append_assoc, List.singleton_append, List.cons_append, List.nil_append,
          List.drop_left]
      · simp only [write8bits, busyWait, Res.st, emitted, ite_D4, ite_D5, ite_D6, ite_D7,
          SET_E, CLR_E, CLR_RW, CLR_RS, wrDDR, wrPORT, delay_us, if_true, id,
          List.append_assoc, List.singleton_append, List.cons_append, List.nil_append,
          List.drop_left]
        simp [busScan, busStep, snap, testBit_bitSet, testBit_bitClr, testBit_putBit, hE2,
          nibOf, writeStrobe, HD44780_IO_E, HD44780_IO_RS, HD44780_IO_RW, HD44780_IO_D4,
          HD44780_IO_D5, HD44780_IO_D6, HD44780_IO_D7, -Nat.testBit_zero]
      · simp only [write8bits, busyWait, Res.st, emitted, ite_D4, ite_D5, ite_D6, ite_D7,
          SET_E, CLR_E, CLR_RW, CLR_RS, wrDDR, wrPORT, delay_us, if_true, id,
          List.append_assoc, List.singleton_append, List.cons_append, List.nil_append,
          List.drop_left]
        simp [pulseScan, pulseStep, testBit_bitSet, testBit_bitClr, testBit_putBit, hE2,
          HD44780_IO_E, HD44780_IO_RS, HD44780_IO_RW, HD44780_IO_D4, HD44780_IO_D5,
          HD44780_IO_D6, HD44780_IO_D7, -Nat.testBit_zero]
      · simp only [write8bits, busyWait, Res.st, ite_D4, ite_D5, ite_D6, ite_D7, SET_E,
          CLR_E, CLR_RW, CLR_RS, wrDDR, wrPORT, delay_us, if_true, id]
        simp [testBit_bitSet, testBit_bitClr, HD44780_IO_E, HD44780_IO_RS]

/-- The state in which `write8bits` enters its completion wait has RS low in
the busy-flag build. -/
theorem write8bits_rs_low (pins : Nat → Nat) (v : Nat) (s : Mcu) :
    (write8bits true pins 0 v s).st.port.testBit HD44780_IO_RS = false := by
  simp only [write8bits, busyWait, Res.st, CLR_RS, wrPORT, if_true]
  simp [testBit_bitClr, HD44780_IO_RS, -Nat.testBit_zero]

/-- The busy-flag build of `write8bits` is its write half followed by the loop. -/
theorem write8bits_busy_eq (pins : Nat → Nat) (fuel v : Nat) (s : Mcu) :
    write8bits true pins fuel v s = busyWait pins fuel (write8bits true pins 0 v s).st := by
  simp only [write8bits, busyWait, Res.st, if_true]

/-- The fixed-delay build of `write8bits` always returns. -/
theorem write8bits_fixed_eq (pins : Nat → Nat) (fuel v : Nat) (s : Mcu) :
    write8bits false pins fuel v s = Res.ret (write8bits false pins 0 v s).st := rfl

/-- The statement `if(c) result |= k;` as one update. -/
theorem ite_or (c : Prop) [Decidable c] (k r : Nat) :
    (if c then (· ||| k) else id) r = r ||| (if c then k else 0) := by
  by_cases h : c <;> simp [h]

theorem land_128 (x : Nat) : (x &&& 128 ≠ 0) ↔ x.testBit 7 = true := by
  have h := Nat.and_two_pow x 7
  rw [show (2 : Nat) ^ 7 = 128 from rfl] at h
  rw [h]
  cases x.testBit 7 <;> simp

theorem land_64 (x : Nat) : (x &&& 64 ≠ 0) ↔ x.testBit 6 = true := by
  have h := Nat.and_two_pow x 6
  rw [show (2 : Nat) ^ 6 = 64 from rfl] at h
  rw [h]
  cases x.testBit 6 <;> simp

/-- The busy flag of the byte `read8bits` returns is the D7 sample of its
first read strobe. -/
theorem read8bits_busy (pins : Nat → Nat) (s : Mcu) :
    ((read8bits pins s).1 &&& CMD_BUSYFLAG ≠ 0) ↔ busyAt pins s.rd = true := by
  simp only [read8bits, READ_D4, READ_D5, READ_D6, READ_D7, rdPIN, SET_RW, SET_E, CLR_E,
    wrDDR, wrPORT, delay_us, busyAt, CMD_BUSYFLAG, HD44780_IO_D7, ite_or]
  rw [land_128]
  simp only [Nat.testBit_lor, apply_ite (fun x => Nat.testBit x 7),
    show Nat.testBit 0 7 = false from by decide, show Nat.testBit 16 7 = false from by decide,
    show Nat.testBit 32 7 = false from by decide, show Nat.testBit 64 7 = false from by decide,
    show Nat.testBit 128 7 = true from by decide, show Nat.testBit 1 7 = false from by decide,
    show Nat.testBit 2 7 = false from by decide, show Nat.testBit 4 7 = false from by decide,
    show Nat.testBit 8 7 = false from by decide, ite_self, Bool.or_false, Bool.false_or,
    Nat.add_assoc]
  simp

/-- One `read8bits` call from a state with E low: two read strobes, eight
reads of `PINA`, RS untouched, E low after. -/
theorem read8bits_runs (pins : Nat → Nat) (s : Mcu)
    (hE : s.port.testBit HD44780_IO_E = false) :
    (read8bits pins s).2.rd = s.rd + 8 ∧
    (read8bits pins s).2.port.testBit HD44780_IO_RS = s.port.testBit HD44780_IO_RS ∧
      Runs true s (read8bits pins s).2
        [BusEv.strobe ⟨s.port.testBit HD44780_IO_RS, true, 0, 0, 2⟩,
         BusEv.strobe ⟨s.port.testBit HD44780_IO_RS, true, 0, 0, 2⟩] := by
  have hE2 : s.port.testBit 2 = false := hE
  refine ⟨?_, ?_, ?_⟩
  · simp only [read8bits, READ_D4, READ_D5, READ_D6, READ_D7, rdPIN, SET_RW, SET_E, CLR_E,
      wrDDR, wrPORT, delay_us]
  · simp only [read8bits, READ_D4, READ_D5, READ_D6, READ_D7, rdPIN, SET_RW, SET_E, CLR_E,
      wrDDR, wrPORT, delay_us]
    simp [testBit_bitSet, testBit_bitClr, HD44780_IO_E, HD44780_IO_RS, HD44780_IO_RW,
      -Nat.testBit_zero]
  · apply Runs.of_emitted
    · simp only [read8bits, READ_D4, READ_D5, READ_D6, READ_D7, rdPIN, SET_RW, SET_E, CLR_E,
        wrDDR, wrPORT, delay_us, emitted, List.append_assoc, List.singleton_append,
        List.cons_append, List.nil_append, List.drop_left]
    · simp only [read8bits, READ_D4, READ_D5, READ_D6, READ_D7, rdPIN, SET_RW, SET_E, CLR_E,
        wrDDR, wrPORT, delay_us, emitted, List.append_assoc, List.singleton_append,
        List.cons_append, List.nil_append, List.drop_left]
      simp [busScan, busStep, snap, testBit_bitSet, testBit_bitClr, hE2, nibOf,
        HD44780_IO_E, HD44780_IO_RS, HD44780_IO_RW, HD44780_IO_D4, HD44780_IO_D5,
        HD44780_IO_D6, HD44780_IO_D7, -Nat.testBit_zero]
    · simp only [read8bits, READ_D4, READ_D5, READ_D6, READ_D7, rdPIN, SET_RW, SET_E, CLR_E,
        wrDDR, wrPORT, delay_us, emitted, List.append_assoc, List.singleton_append,
        List.cons_append, List.nil_append, List.drop_left]
      simp [pulseScan, pulseStep, testBit_bitSet, testBit_bitClr, hE2, HD44780_IO_E,
        HD44780_IO_RS, HD44780_IO_RW, HD44780_IO_D4, HD44780_IO_D5, HD44780_IO_D6,
        HD44780_IO_D7, -Nat.testBit_zero]
    · simp only [read8bits, READ_D4, READ_D5, READ_D6, READ_D7, rdPIN, SET_RW, SET_E, CLR_E,
        wrDDR, wrPORT, delay_us]
      simp [testBit_bitSet, testBit_bitClr, HD44780_IO_E]

/-- The busy-flag loop from a state with E and RS low: it runs `pollCycles`
read cycles, each showing two read strobes, and returns exactly when one of
the status reads within the budget has the busy flag clear. -/
theorem busyWait_runs (pins : Nat → Nat) (fuel : Nat) (s : Mcu)
    (hE : s.port.testBit HD44780_IO_E = false)
    (hRS : s.port.testBit HD44780_IO_RS = false) :
    (busyWait pins fuel s).st.rd = s.rd + 8 * pollCycles pins fuel s.rd ∧
    (busyWait pins fuel s).returned = pollReady pins fuel s.rd ∧
      Runs true s (busyWait pins fuel s).st
        (List.replicate (2 * pollCycles pins fuel s.rd) (BusEv.strobe readStrobe)) := by
  induction fuel generalizing s with
  | zero =>
    refine ⟨?_, ?_, ?_⟩
    · simp [busyWait, pollCycles]
    · simp [busyWait, pollReady]
    · simpa [busyWait, pollCycles] using Runs.refl true s hE
  | succ n ih =>
    obtain ⟨hrd, hrs, hrun⟩ := read8bits_runs pins s hE
    have hE1 : (read8bits pins s).2.port.testBit HD44780_IO_E = false := by
      obtain ⟨_, _, _, _, h⟩ := hrun
      exact h
    rw [hRS] at hrs hrun
    by_cases hb : busyAt pins s.rd = true
    · have hc : (read8bits pins s).1 &&& CMD_BUSYFLAG ≠ 0 := (read8bits_busy pins s).2 hb
      obtain ⟨ird, iret, irun⟩ := ih (read8bits pins s).2 hE1 hrs
      have e : busyWait pins (n + 1) s = busyWait pins n (read8bits pins s).2 := by
        simp only [busyWait, hc, ne_eq, not_false_eq_true, if_true]
      rw [e]
      refine ⟨?_, ?_, ?_⟩
      · rw [ird, hrd]; simp [pollCycles, hb]; ring
      · rw [iret, hrd]; simp [pollReady, hb]
      · have h := Runs.trans hrun irun
        rw [hrd] at h
        have e2 : 2 * pollCycles pins (n + 1) s.rd = 2 + 2 * pollCycles pins n (s.rd + 8) := by
          simp [pollCycles, hb]; ring
        rw [e2, List.replicate_add]
        simpa [readStrobe, List.replicate] using h
    · have hc : ¬ ((read8bits pins s).1 &&& CMD_BUSYFLAG ≠ 0) := fun h =>
        hb ((read8bits_busy pins s).1 h)
      have e : busyWait pins (n + 1) s = Res.ret (read8bits pins s).2 := by
        simp only [busyWait, hc, if_false]
      rw [e]
      refine ⟨?_, ?_, ?_⟩
      · simp [hrd, pollCycles, hb]
      · simp [pollReady, hb]
      · simpa [pollCycles, hb, readStrobe, List.replicate] using hrun

/-- A port write that leaves E low is invisible on the bus. -/
theorem Runs.wrPORT_low (rw : Bool) (s : Mcu) (v : Nat)
    (hE : s.port.testBit HD44780_IO_E = false) (hv : v.testBit HD44780_IO_E = false) :
    Runs rw s (wrPORT s v) [] := by
  apply Runs.of_emitted
  · simp [emitted, wrPORT]
  · simp [emitted, wrPORT, busScan, busStep, hE, hv]
  · simp [emitted, wrPORT, pulseScan, pulseStep, hE, hv]
  · simpa [wrPORT] using hv

/-- A millisecond delay outside a pulse shows as a wait. -/
theorem Runs.delay_ms (rw : Bool) (s : Mcu) (n : Nat)
    (hE : s.port.testBit HD44780_IO_E = false) :
    Runs rw s (delay_ms n s) [BusEv.wait (1000 * n)] := by
  apply Runs.of_emitted
  · simp [emitted, HD44780.delay_ms]
  · simp [emitted, HD44780.delay_ms, busScan, busStep]
  · simp [emitted, HD44780.delay_ms, pulseScan, pulseStep]
  · simpa [HD44780.delay_ms] using hE

/-- One byte transfer from a state with E low: the bus view, the reads
consumed, and whether it returns. -/
theorem transfer_runs (rw : Bool) (pins : Nat → Nat) (fuel : Nat) (rs : Bool) (v : Nat)
    (s : Mcu) (hE : s.port.testBit HD44780_IO_E = false) :
    (transfer rw pins fuel rs v s).st.rd = transferRd rw pins fuel s.rd ∧
    (transfer rw pins fuel rs v s).returned = (!rw || pollReady pins fuel s.rd) ∧
      Runs rw s (transfer rw pins fuel rs v s).st (transferView rw pins fuel s.rd rs v) := by
  have hE2 : s.port.testBit 2 = false := hE
  -- the register-select write
  have key : ∀ u : Mcu, u.rd = s.rd → u.port.testBit HD44780_IO_E = false →
      u.port.testBit HD44780_IO_RS = rs → Runs rw s u [] →
      (write8bits rw pins fuel v u).st.rd = transferRd rw pins fuel s.rd ∧
      (write8bits rw pins fuel v u).returned = (!rw || pollReady pins fuel s.rd) ∧
      Runs rw s (write8bits rw pins fuel v u).st (transferView rw pins fuel s.rd rs v) := by
    intro u hrd huE huRS hsu
    obtain ⟨wrd, wrun⟩ := write8bits_strobes rw pins v u huE
    rw [huRS] at wrun
    have h1 := Runs.trans hsu wrun
    cases rw
    · rw [write8bits_fixed_eq]
      refine ⟨by simp [wrd, hrd, transferRd], by simp, ?_⟩
      simpa [transferView] using h1
    · rw [write8bits_busy_eq]
      have hE0 : (write8bits true pins 0 v u).st.port.testBit HD44780_IO_E = false := by
        obtain ⟨_, _, _, _, h⟩ := wrun
        exact h
      obtain ⟨brd, bret, brun⟩ :=
        busyWait_runs pins fuel _ hE0 (write8bits_rs_low pins v u)
      rw [wrd, hrd] at brd bret brun
      refine ⟨by simp [brd, transferRd], by simp [bret], ?_⟩
      have h2 := Runs.trans h1 brun
      simpa [transferView] using h2
  cases rs
  · have hv : (bitClr s.port HD44780_IO_RS).testBit HD44780_IO_E = false := by
      simp [testBit_bitClr, HD44780_IO_E, HD44780_IO_RS, hE2]
    have := key (CLR_RS s) (by simp [CLR_RS, wrPORT]) (by simpa [CLR_RS, wrPORT] using hv)
      (by simp [CLR_RS, wrPORT, testBit_bitClr, HD44780_IO_RS, -Nat.testBit_zero])
      (Runs.wrPORT_low rw s _ hE hv)
    simpa [transfer, write_cmd] using this
  · have hv : (bitSet s.port HD44780_IO_RS).testBit HD44780_IO_E = false := by
      simp [testBit_bitSet, HD44780_IO_E, HD44780_IO_RS, hE2]
    have := key (SET_RS s) (by simp [SET_RS, wrPORT]) (by simpa [SET_RS, wrPORT] using hv)
      (by simp [SET_RS, wrPORT, testBit_bitSet, HD44780_IO_RS, -Nat.testBit_zero])
      (Runs.wrPORT_low rw s _ hE hv)
    simpa [transfer, write_data] using this

theorem Runs.e_low {rw : Bool} {s t : Mcu} {v : List BusEv} (h : Runs rw s t v) :
    t.port.testBit HD44780_IO_E = false := by
  obtain ⟨_, _, _, _, h⟩ := h
  exact h

/-- A transfer sequence from a state with E low: the bus view, and whether it
returns. -/
theorem runPlan_runs (rw : Bool) (pins : Nat → Nat) (fuel : Nat) (steps : List Step)
    (s : Mcu) (hE : s.port.testBit HD44780_IO_E = false) :
    (runPlan rw pins fuel steps s).returned = planReady rw pins fuel s.rd steps ∧
      Runs rw s (runPlan rw pins fuel steps s).st (planView rw pins fuel s.rd steps) := by
  induction steps generalizing s with
  | nil => exact ⟨by simp [runPlan, planReady],
      by simpa [runPlan, planView] using Runs.refl rw s hE⟩
  | cons st r ih =>
    cases st with
    | xfer rs v =>
      obtain ⟨trd, tret, trun⟩ := transfer_runs rw pins fuel rs v s hE
      cases hres : transfer rw pins fuel rs v s with
      | ret t =>
        rw [hres] at trd tret trun
        simp only [Res.st_ret, Res.st_spin, Res.returned_ret, Res.returned_spin] at trd tret trun
        obtain ⟨iret, irun⟩ := ih t trun.e_low
        rw [trd] at iret irun
        refine ⟨?_, ?_⟩
        · simp [runPlan, hres, planReady, ← tret, iret]
        · simpa [runPlan, hres, planView, ← tret] using Runs.trans trun irun
      | spin t =>
        rw [hres] at trd tret trun
        simp only [Res.st_ret, Res.st_spin, Res.returned_ret, Res.returned_spin] at trd tret trun
        refine ⟨?_, ?_⟩
        · simp [runPlan, hres, planReady, ← tret]
        · simpa [runPlan, hres, planView, ← tret] using trun
    | pause ms =>
      have hd : (delay_ms ms s).port.testBit HD44780_IO_E = false := by
        simpa [HD44780.delay_ms] using hE
      obtain ⟨iret, irun⟩ := ih (delay_ms ms s) hd
      have e : (delay_ms ms s).rd = s.rd := by simp [HD44780.delay_ms]
      rw [e] at iret irun
      refine ⟨by simpa [runPlan, planReady] using iret, ?_⟩
      simpa [runPlan, planView] using Runs.trans (Runs.delay_ms rw s ms hE) irun

theorem strobesOf_append (a b : List BusEv) :
    strobesOf (a ++ b) = strobesOf a ++ strobesOf b := by
  induction a with
  | nil => rfl
  | cons e r ih => cases e <;> simp [strobesOf, ih]

theorem strobesOf_replicate_read (n : Nat) :
    strobesOf (List.replicate n (BusEv.strobe readStrobe)) = List.replicate n readStrobe := by
  induction n with
  | zero => rfl
  | succ k ih => simp [List.replicate_succ, strobesOf, ih]

/-- The strobes of one byte transfer. -/
theorem strobesOf_transferView (rw : Bool) (pins : Nat → Nat) (fuel rd : Nat) (rs : Bool)
    (v : Nat) :
    strobesOf (transferView rw pins fuel rd rs v) =
      [writeStrobe rs ((v >>> 4) &&& 0xF), writeStrobe rs (v &&& 0xF)] ++
        List.replicate (if rw then 2 * pollCycles pins fuel rd else 0) readStrobe := by
  cases rw <;> simp [transferView, strobesOf, strobesOf_append, strobesOf_replicate_read]

theorem writeStrobesOf_transferView (rw : Bool) (pins : Nat → Nat) (fuel rd : Nat) (rs : Bool)
    (v : Nat) :
    writeStrobesOf (transferView rw pins fuel rd rs v) =
      [writeStrobe rs ((v >>> 4) &&& 0xF), writeStrobe rs (v &&& 0xF)] := by
  rw [writeStrobesOf, strobesOf_transferView]
  simp [writeStrobe, readStrobe, List.filter_cons]

/-! ## Transfers: strobes and nibbles -/

/-- C1, counterexample: in the busy-flag build, with a device that reads ready
at once, `write_data(0x41)` shows four enable strobes in total (two write
strobes and the two read strobes of the poll), not two. -/
theorem transfer_busy_strobe_count :
    (strobesOf (busView true Mcu.reset
      (write_data true (fun _ => 0) 1 0x41 Mcu.reset).st)).length = 4 ∧
    (strobesOf (busView true Mcu.reset
      (write_data true (fun _ => 0) 1 0x41 Mcu.reset).st)).length ≠ 2 := by
  decide

/-- C1, amended: a call of `write_cmd` (`rs = false`) or `write_data`
(`rs = true`) entered with E low produces exactly two write strobes, the high
nibble first, with RS at the level of the call at both; in the fixed-delay
build these are all its strobes, in the busy-flag build they are followed by
the read strobes of the poll, two per status read. -/
theorem transfer_write_strobes (rw : Bool) (pins : Nat → Nat) (fuel : Nat) (rs : Bool)
    (v : Nat) (s : Mcu) (hE : s.port.testBit HD44780_IO_E = false) :
    writeStrobesOf (busView rw s (transfer rw pins fuel rs v s).st) =
        [writeStrobe rs ((v >>> 4) &&& 0xF), writeStrobe rs (v &&& 0xF)] ∧
    strobesOf (busView rw s (transfer rw pins fuel rs v s).st) =
        [writeStrobe rs ((v >>> 4) &&& 0xF), writeStrobe rs (v &&& 0xF)] ++
          List.replicate (if rw then 2 * pollCycles pins fuel s.rd else 0) readStrobe ∧
    (rw = false → (strobesOf (busView rw s (transfer rw pins fuel rs v s).st)).length = 2) := by
  have h := (transfer_runs rw pins fuel rs v s hE).2.2.emitted_eq
  rw [h]
  refine ⟨writeStrobesOf_transferView _ _ _ _ _ _, strobesOf_transferView _ _ _ _ _ _, ?_⟩
  intro hrw
  simp [strobesOf_transferView, hrw]

/-- Instance of `transfer_write_strobes`: `write_cmd(0x01)` from power-on
registers in the fixed-delay build. -/
theorem transfer_write_strobes_witness :
    writeStrobesOf (busView false Mcu.reset (transfer false (fun _ => 0) 0 false 0x01 Mcu.reset).st)
      = [writeStrobe false 0, writeStrobe false 1] :=
  (transfer_write_strobes false (fun _ => 0) 0 false 0x01 Mcu.reset (by decide)).1

/-- C2: for every byte `v`, the data lines carry `(v >> 4) & 0xF` at the first
write strobe of `write_cmd(v)`/`write_data(v)` and `v & 0xF` at the second,
and `16 * high + low = v`. -/
theorem transfer_nibbles (rw : Bool) (pins : Nat → Nat) (fuel : Nat) (rs : Bool)
    (v : Nat) (s : Mcu) (hv : v < 256) (hE : s.port.testBit HD44780_IO_E = false) :
    (writeStrobesOf (busView rw s (transfer rw pins fuel rs v s).st)).map
        (fun p => (p.rs, p.nib)) = [(rs, (v >>> 4) &&& 0xF), (rs, v &&& 0xF)] ∧
    16 * ((v >>> 4) &&& 0xF) + (v &&& 0xF) = v := by
  have h := (transfer_runs rw pins fuel rs v s hE).2.2.emitted_eq
  rw [h, writeStrobesOf_transferView]
  refine ⟨by simp [writeStrobe], ?_⟩
  obtain ⟨_, _, h3, h4⟩ := nib_bytes v hv
  rw [h3, h4]
  omega

/-- Instance of `transfer_nibbles`: `write_data(0x41)` puts 0x4 then 0x1 on the
lines with RS high at both strobes. -/
theorem transfer_nibbles_witness :
    (writeStrobesOf (busView true Mcu.reset
      (transfer true (fun _ => 0) 1 true 0x41 Mcu.reset).st)).map (fun p => (p.rs, p.nib))
        = [(true, 4), (true, 1)] :=
  (transfer_nibbles true (fun _ => 0) 1 true 0x41 Mcu.reset (by decide) (by decide)).1

/-! ## Completion of a transfer -/

theorem transfer_false (rw : Bool) (pins : Nat → Nat) (fuel v : Nat) (s : Mcu) :
    transfer rw pins fuel false v s = write_cmd rw pins fuel v s := rfl

theorem transfer_true (rw : Bool) (pins : Nat → Nat) (fuel v : Nat) (s : Mcu) :
    transfer rw pins fuel true v s = write_data rw pins fuel v s := rfl

/-- In the busy-flag build a transfer is its write half followed by the loop. -/
theorem transfer_busy_eq (pins : Nat → Nat) (fuel : Nat) (rs : Bool) (v : Nat) (s : Mcu) :
    transfer true pins fuel rs v s = busyWait pins fuel (transfer true pins 0 rs v s).st := by
  cases rs <;> simp only [transfer, write_cmd, write_data, Bool.false_eq_true, if_false, if_true]
    <;> exact write8bits_busy_eq _ _ _ _

theorem statusAt_succ (pins : Nat → Nat) (s : Mcu) (i : Nat) :
    statusAt pins s (i + 1) = statusAt pins (read8bits pins s).2 i := rfl

theorem cycles_succ (pins : Nat → Nat) (s : Mcu) (i : Nat) :
    cycles pins (i + 1) s = cycles pins i (read8bits pins s).2 := rfl

/-- The loop returns exactly after the first status read with the busy flag
clear, when there is one within the budget. -/
theorem busyWait_ret_iff (pins : Nat → Nat) (fuel : Nat) (s t : Mcu) :
    busyWait pins fuel s = Res.ret t ↔
      ∃ n, n < fuel ∧ (∀ i, i < n → statusAt pins s i &&& CMD_BUSYFLAG ≠ 0) ∧
        statusAt pins s n &&& CMD_BUSYFLAG = 0 ∧ t = cycles pins (n + 1) s := by
  induction fuel generalizing s with
  | zero => simp [busyWait]
  | succ k ih =>
    by_cases hb : (read8bits pins s).1 &&& CMD_BUSYFLAG ≠ 0
    · have e : busyWait pins (k + 1) s = busyWait pins k (read8bits pins s).2 := by
        simp only [busyWait, hb, ne_eq, not_false_eq_true, if_true]
      rw [e, ih]
      constructor
      · rintro ⟨n, hn, hbusy, hready, ht⟩
        refine ⟨n + 1, by omega, ?_, hready, ht⟩
        intro i hi
        cases i with
        | zero => exact hb
        | succ j => exact hbusy j (by omega)
      · rintro ⟨n, hn, hbusy, hready, ht⟩
        cases n with
        | zero => exact absurd hready hb
        | succ m =>
          exact ⟨m, by omega, fun i hi => hbusy (i + 1) (by omega), hready, ht⟩
    · have e : busyWait pins (k + 1) s = Res.ret (read8bits pins s).2 := by
        simp only [busyWait, hb, if_false]
      rw [e]
      have hz : statusAt pins s 0 &&& CMD_BUSYFLAG = 0 := by
        simpa [statusAt, cycles] using hb
      constructor
      · intro h
        refine ⟨0, by omega, fun i hi => absurd hi (by omega), hz, ?_⟩
        simpa [cycles] using (Res.ret.inj h).symm
      · rintro ⟨n, hn, hbusy, hready, ht⟩
        cases n with
        | zero => rw [ht]; rfl
        | succ m => exact absurd hz (hbusy 0 (by omega))

/-- The loop is still running after the budget exactly when every status read
within the budget had the busy flag set. -/
theorem busyWait_spin_iff (pins : Nat → Nat) (fuel : Nat) (s t : Mcu) :
    busyWait pins fuel s = Res.spin t ↔
      (∀ i, i < fuel → statusAt pins s i &&& CMD_BUSYFLAG ≠ 0) ∧ t = cycles pins fuel s := by
  induction fuel generalizing s with
  | zero =>
    simp only [busyWait, cycles]
    constructor
    · intro h
      exact ⟨fun i hi => absurd hi (by omega), (Res.spin.inj h).symm⟩
    · rintro ⟨_, h⟩
      rw [h]
  | succ k ih =>
    by_cases hb : (read8bits pins s).1 &&& CMD_BUSYFLAG ≠ 0
    · have e : busyWait pins (k + 1) s = busyWait pins k (read8bits pins s).2 := by
        simp only [busyWait, hb, ne_eq, not_false_eq_true, if_true]
      rw [e, ih]
      constructor
      · rintro ⟨hbusy, ht⟩
        refine ⟨?_, ht⟩
        intro i hi
        cases i with
        | zero => exact hb
        | succ j => exact hbusy j (by omega)
      · rintro ⟨hbusy, ht⟩
        exact ⟨fun i hi => hbusy (i + 1) (by omega), ht⟩
    · have e : busyWait pins (k + 1) s = Res.ret (read8bits pins s).2 := by
        simp only [busyWait, hb, if_false]
      rw [e]
      constructor
      · intro h
        cases h
      · rintro ⟨hbusy, _⟩
        exact absurd (hbusy 0 (by omega)) hb

/-- C3: in the busy-flag build a call of `write_cmd`/`write_data` returns
exactly in the state right after the first status read whose bit 7 is 0, every
earlier status read of the call having bit 7 = 1; while no such read has
occurred within the budget the call has not returned, and a following call
is not started. -/
theorem transfer_returns_after_ready (pins : Nat → Nat) (fuel : Nat) (rs : Bool) (v : Nat)
    (s : Mcu) :
    (∀ t, transfer true pins fuel rs v s = Res.ret t ↔
      ∃ n, n < fuel ∧
        (∀ i, i < n →
          statusAt pins (transfer true pins 0 rs v s).st i &&& CMD_BUSYFLAG ≠ 0) ∧
        statusAt pins (transfer true pins 0 rs v s).st n &&& CMD_BUSYFLAG = 0 ∧
        t = cycles pins (n + 1) (transfer true pins 0 rs v s).st) ∧
    (∀ t, transfer true pins fuel rs v s = Res.spin t ↔
      (∀ i, i < fuel →
          statusAt pins (transfer true pins 0 rs v s).st i &&& CMD_BUSYFLAG ≠ 0) ∧
        t = cycles pins fuel (transfer true pins 0 rs v s).st) ∧
    (∀ t next, transfer true pins fuel rs v s = Res.spin t →
      (transfer true pins fuel rs v s).bind next = Res.spin t) := by
  refine ⟨fun t => ?_, fun t => ?_, fun t next h => ?_⟩
  · rw [transfer_busy_eq]; exact busyWait_ret_iff _ _ _ _
  · rw [transfer_busy_eq]; exact busyWait_spin_iff _ _ _ _
  · rw [h]; rfl

theorem Res.bind_ret_right (r : Res) : r.bind Res.ret = r := by
  cases r <;> rfl

theorem runPlan_nil (rw : Bool) (pins : Nat → Nat) (fuel : Nat) :
    runPlan rw pins fuel [] = Res.ret := by
  funext s; rfl

/-- C4: in the fixed-delay build two consecutive calls of
`write_cmd`/`write_data` (entered with E low) both return, and the delay
executed between the last strobe of the first and the first strobe of the
second is 120 microseconds, so never less than the margin. -/
theorem fixed_delay_between_transfers (pins : Nat → Nat) (fuel : Nat) (rs1 : Bool) (v1 : Nat)
    (rs2 : Bool) (v2 : Nat) (s : Mcu) (hE : s.port.testBit HD44780_IO_E = false) :
    ((transfer false pins fuel rs1 v1 s).bind (transfer false pins fuel rs2 v2)).returned
      = true ∧
    busView false s ((transfer false pins fuel rs1 v1 s).bind
        (transfer false pins fuel rs2 v2)).st =
      [BusEv.strobe (writeStrobe rs1 ((v1 >>> 4) &&& 0xF)),
       BusEv.strobe (writeStrobe rs1 (v1 &&& 0xF)), BusEv.wait 120,
       BusEv.strobe (writeStrobe rs2 ((v2 >>> 4) &&& 0xF)),
       BusEv.strobe (writeStrobe rs2 (v2 &&& 0xF)), BusEv.wait 120] ∧
    gapsFrom none (busView false s ((transfer false pins fuel rs1 v1 s).bind
        (transfer false pins fuel rs2 v2)).st) = [0, 120, 0] ∧
    ∀ g, (gapsFrom none (busView false s ((transfer false pins fuel rs1 v1 s).bind
        (transfer false pins fuel rs2 v2)).st))[1]? = some g → 120 ≤ g := by
  have h := runPlan_runs false pins fuel [Step.xfer rs1 v1, Step.xfer rs2 v2] s hE
  have e : runPlan false pins fuel [Step.xfer rs1 v1, Step.xfer rs2 v2] s =
      (transfer false pins fuel rs1 v1 s).bind (transfer false pins fuel rs2 v2) := by
    simp only [runPlan, runPlan_nil, Res.bind_ret_right]
  rw [e] at h
  obtain ⟨hret, hrun⟩ := h
  have hv := hrun.emitted_eq
  simp only [planView, transferView, Bool.not_false, Bool.true_or, if_true, Bool.false_eq_true,
    if_false, List.append_nil, List.cons_append, List.nil_append] at hv
  rw [hv]
  refine ⟨by simpa [planReady] using hret, rfl, by simp [gapsFrom], ?_⟩
  intro g hg
  simp [gapsFrom] at hg
  omega

/-- Instance of `fixed_delay_between_transfers`: `write_cmd(0x01)` followed by
`write_data(0x41)` from power-on registers. -/
theorem fixed_delay_between_transfers_witness :
    gapsFrom none (busView false Mcu.reset ((transfer false (fun _ => 0) 0 false 0x01
        Mcu.reset).bind (transfer false (fun _ => 0) 0 true 0x41)).st) = [0, 120, 0] :=
  (fixed_delay_between_transfers (fun _ => 0) 0 false 0x01 true 0x41 Mcu.reset
    (by decide)).2.2.1

/-! ## Initialisation -/

theorem lcd_init_eq (rw : Bool) (pins : Nat → Nat) (fuel : Nat) (s : Mcu) :
    lcd_init rw pins fuel s = runPlan rw pins fuel initPlan (initReset rw s) := by
  simp only [lcd_init, initPlan, runPlan, runPlan_nil, Res.bind_ret_right, transfer,
    Bool.false_eq_true, if_false]
  rfl

set_option maxRecDepth 4000 in
/-- The first part of `lcd_init`, from any register contents: the 100 ms wait,
three raw strobes with nibble 3 each followed by 5 ms, one raw strobe with
nibble 2 followed by 100 us; all lines outputs, RS, E (and RW) low. -/
theorem initReset_runs (rw : Bool) (s : Mcu) :
    (initReset rw s).rd = s.rd ∧ Runs rw s (initReset rw s) resetView := by
  have hr : List.range 3 = [0, 1, 2] := rfl
  refine ⟨?_, ?_⟩
  · cases rw <;>
      simp only [initReset, hr, List.foldl_cons, List.foldl_nil, SET_D4, SET_D5, CLR_D4, CLR_D6,
        CLR_D7, SET_E, CLR_E, CLR_RS, CLR_RW, wrDDR, wrPORT, delay_us, HD44780.delay_ms,
        Bool.false_eq_true, if_false, if_true, id]
  · cases hx : s.port.testBit 2 <;> cases rw <;>
    · apply Runs.of_emitted
      · simp only [initReset, hr, List.foldl_cons, List.foldl_nil, SET_D4, SET_D5, CLR_D4,
          CLR_D6, CLR_D7, SET_E, CLR_E, CLR_RS, CLR_RW, wrDDR, wrPORT, delay_us,
          HD44780.delay_ms, Bool.false_eq_true, if_false, if_true, id, emitted,
          List.append_assoc, List.singleton_append, List.cons_append, List.nil_append,
          List.drop_left]
      · simp only [initReset, hr, List.foldl_cons, List.foldl_nil, SET_D4, SET_D5, CLR_D4,
          CLR_D6, CLR_D7, SET_E, CLR_E, CLR_RS, CLR_RW, wrDDR, wrPORT, delay_us,
          HD44780.delay_ms, Bool.false_eq_true, if_false, if_true, id, emitted,
          List.append_assoc, List.singleton_append, List.cons_append, List.nil_append,
          List.drop_left]
        simp [busScan, busStep, snap, testBit_bitSet, testBit_bitClr, hx, nibOf, resetView,
          writeStrobe, HD44780_IO_E, HD44780_IO_RS, HD44780_IO_RW, HD44780_IO_D4,
          HD44780_IO_D5, HD44780_IO_D6, HD44780_IO_D7, -Nat.testBit_zero]
      · simp only [initReset, hr, List.foldl_cons, List.foldl_nil, SET_D4, SET_D5, CLR_D4,
          CLR_D6, CLR_D7, SET_E, CLR_E, CLR_RS, CLR_RW, wrDDR, wrPORT, delay_us,
          HD44780.delay_ms, Bool.false_eq_true, if_false, if_true, id, emitted,
          List.append_assoc, List.singleton_append, List.cons_append, List.nil_append,
          List.drop_left]
        simp [pulseScan, pulseStep, testBit_bitSet, testBit_bitClr, hx, HD44780_IO_E,
          HD44780_IO_RS, HD44780_IO_RW, HD44780_IO_D4, HD44780_IO_D5, HD44780_IO_D6,
          HD44780_IO_D7, -Nat.testBit_zero]
      · simp only [initReset, hr, List.foldl_cons, List.foldl_nil, SET_D4, SET_D5, CLR_D4,
          CLR_D6, CLR_D7, SET_E, CLR_E, CLR_RS, CLR_RW, wrDDR, wrPORT, delay_us,
          HD44780.delay_ms, Bool.false_eq_true, if_false, if_true, id]
        simp [testBit_bitSet, testBit_bitClr, HD44780_IO_E]

/-- Bus view of `lcd_init` from any register contents, and whether it returns. -/
theorem lcd_init_runs (rw : Bool) (pins : Nat → Nat) (fuel : Nat) (s : Mcu) :
    (lcd_init rw pins fuel s).returned = planReady rw pins fuel s.rd initPlan ∧
      Runs rw s (lcd_init rw pins fuel s).st
        (resetView ++ planView rw pins fuel s.rd initPlan) := by
  obtain ⟨hrd, hrun⟩ := initReset_runs rw s
  obtain ⟨pret, prun⟩ := runPlan_runs rw pins fuel initPlan (initReset rw s) hrun.e_low
  rw [hrd] at pret prun
  rw [lcd_init_eq]
  exact ⟨pret, Runs.trans hrun prun⟩

theorem Runs.emitted_append {rw : Bool} {s t u : Mcu} {v w : List BusEv}
    (h1 : Runs rw s t v) (h2 : Runs rw t u w) : emitted s u = emitted s t ++ emitted t u := by
  obtain ⟨a, ha, _⟩ := h1
  obtain ⟨b, hb, _⟩ := h2
  simp [emitted, ha, hb]

theorem writeStrobesOf_append (a b : List BusEv) :
    writeStrobesOf (a ++ b) = writeStrobesOf a ++ writeStrobesOf b := by
  simp [writeStrobesOf, strobesOf_append]

theorem writeStrobesOf_wait (n : Nat) (r : List BusEv) :
    writeStrobesOf (BusEv.wait n :: r) = writeStrobesOf r := rfl

/-- The write strobes of a transfer sequence whose polls all finish. -/
theorem writeStrobesOf_planView (rw : Bool) (pins : Nat → Nat) (fuel : Nat) (steps : List Step)
    (rd : Nat) (h : planReady rw pins fuel rd steps = true) :
    writeStrobesOf (planView rw pins fuel rd steps) = steps.flatMap stepStrobes := by
  induction steps generalizing rd with
  | nil => rfl
  | cons st r ih =>
    cases st with
    | xfer rs v =>
      simp only [planReady, Bool.and_eq_true] at h
      simp only [planView, h.1, if_true, writeStrobesOf_append, writeStrobesOf_transferView,
        ih _ h.2, List.flatMap_cons, stepStrobes]
    | pause ms =>
      simp only [planReady] at h
      simp only [planView, writeStrobesOf_wait, ih _ h, List.flatMap_cons, stepStrobes,
        List.nil_append]

/-- In the fixed-delay build every transfer sequence returns. -/
theorem planReady_fixed (pins : Nat → Nat) (fuel : Nat) (steps : List Step) (rd : Nat) :
    planReady false pins fuel rd steps = true := by
  induction steps generalizing rd with
  | nil => rfl
  | cons st r ih => cases st <;> simp [planReady, ih]

/-- The log of the first part of `lcd_init` starts with register writes only,
up to the 100 ms delay, and these leave D4..D7, RS, E (and RW when wired)
outputs and RS, E (and RW) low. -/
theorem initReset_setup (rw : Bool) (s : Mcu) :
    ∃ pre post, emitted s (initReset rw s) = pre ++ Event.delay_ms 100 :: post ∧
      (∀ e ∈ pre, e.isWrite = true) ∧
      (∀ k ∈ [HD44780_IO_D4, HD44780_IO_D5, HD44780_IO_D6, HD44780_IO_D7, HD44780_IO_RS,
          HD44780_IO_E], (busScan rw ⟨s.ddr, s.port, none⟩ pre).1.ddr.testBit k = true) ∧
      (rw = true → (busScan rw ⟨s.ddr, s.port, none⟩ pre).1.ddr.testBit HD44780_IO_RW = true) ∧
      (busScan rw ⟨s.ddr, s.port, none⟩ pre).1.port.testBit HD44780_IO_RS = false ∧
      (busScan rw ⟨s.ddr, s.port, none⟩ pre).1.port.testBit HD44780_IO_E = false ∧
      (rw = true →
        (busScan rw ⟨s.ddr, s.port, none⟩ pre).1.port.testBit HD44780_IO_RW = false) := by
  have hr : List.range 3 = [0, 1, 2] := rfl
  cases hx : s.port.testBit 2 <;> cases rw
  all_goals
    simp only [initReset, hr, List.foldl_cons, List.foldl_nil, SET_D4, SET_D5, CLR_D4,
      CLR_D6, CLR_D7, SET_E, CLR_E, CLR_RS, CLR_RW, wrDDR, wrPORT, delay_us,
      HD44780.delay_ms, Bool.false_eq_true, if_false, if_true, id, emitted,
      List.append_assoc, List.singleton_append, List.cons_append, List.nil_append,
      List.drop_left]
  all_goals
    first
    | refine ⟨[_, _, _, _, _, _, _, _], _, rfl, ?_, ?_, ?_, ?_, ?_, ?_⟩
    | refine ⟨[_, _, _, _, _, _, _, _, _, _], _, rfl, ?_, ?_, ?_, ?_, ?_, ?_⟩
  all_goals
    simp [Event.isWrite, busScan, busStep, testBit_bitSet, testBit_bitClr, hx, HD44780_IO_E,
      HD44780_IO_RS, HD44780_IO_RW, HD44780_IO_D4, HD44780_IO_D5, HD44780_IO_D6,
      HD44780_IO_D7, -Nat.testBit_zero]

/-- C5: `lcd_init`, from any register contents. (1) Its log starts with
register writes only, which make D4..D7, RS, E (and RW when wired) outputs and
drive RS, E (and RW) low; (2) the 100 ms delay follows. On the bus the run
then shows (3) three raw strobes with nibble 3, each followed by 5 ms, (4) one
raw strobe with nibble 2 followed by 100 us, and (5), (6) the transfers of the
command bytes 0x28, 0x08, 0x01 (then 5 ms), 0x06 and 0x0C, in this order and
nothing else. The fixed-delay build always returns; its bus view is spelled
out. In either build a run that returns shows exactly the listed write
strobes, the four raw ones being the only ones outside a byte transfer. -/
theorem lcd_init_sequence (rw : Bool) (pins : Nat → Nat) (fuel : Nat) (s : Mcu) :
    (∃ pre post, emitted s (lcd_init rw pins fuel s).st = pre ++ Event.delay_ms 100 :: post ∧
      (∀ e ∈ pre, e.isWrite = true) ∧
      (∀ k ∈ [HD44780_IO_D4, HD44780_IO_D5, HD44780_IO_D6, HD44780_IO_D7, HD44780_IO_RS,
          HD44780_IO_E], (busScan rw ⟨s.ddr, s.port, none⟩ pre).1.ddr.testBit k = true) ∧
      (rw = true → (busScan rw ⟨s.ddr, s.port, none⟩ pre).1.ddr.testBit HD44780_IO_RW = true) ∧
      (busScan rw ⟨s.ddr, s.port, none⟩ pre).1.port.testBit HD44780_IO_RS = false ∧
      (busScan rw ⟨s.ddr, s.port, none⟩ pre).1.port.testBit HD44780_IO_E = false ∧
      (rw = true →
        (busScan rw ⟨s.ddr, s.port, none⟩ pre).1.port.testBit HD44780_IO_RW = false)) ∧
    busView rw s (lcd_init rw pins fuel s).st =
      [BusEv.wait 100000,
       BusEv.strobe (writeStrobe false 3), BusEv.wait 5000,
       BusEv.strobe (writeStrobe false 3), BusEv.wait 5000,
       BusEv.strobe (writeStrobe false 3), BusEv.wait 5000,
       BusEv.strobe (writeStrobe false 2), BusEv.wait 100] ++
      planView rw pins fuel s.rd
        [Step.xfer false 0x28, Step.xfer false 0x08, Step.xfer false 0x01, Step.pause 5,
         Step.xfer false 0x06, Step.xfer false 0x0C] ∧
    (lcd_init false pins fuel s).returned = true ∧
    busView false s (lcd_init false pins fuel s).st =
      [BusEv.wait 100000,
       BusEv.strobe (writeStrobe false 3), BusEv.wait 5000,
       BusEv.strobe (writeStrobe false 3), BusEv.wait 5000,
       BusEv.strobe (writeStrobe false 3), BusEv.wait 5000,
       BusEv.strobe (writeStrobe false 2), BusEv.wait 100,
       BusEv.strobe (writeStrobe false 2), BusEv.strobe (writeStrobe false 8), BusEv.wait 120,
       BusEv.strobe (writeStrobe false 0), BusEv.strobe (writeStrobe false 8), BusEv.wait 120,
       BusEv.strobe (writeStrobe false 0), BusEv.strobe (writeStrobe false 1), BusEv.wait 120,
       BusEv.wait 5000,
       BusEv.strobe (writeStrobe false 0), BusEv.strobe (writeStrobe false 6), BusEv.wait 120,
       BusEv.strobe (writeStrobe false 0), BusEv.strobe (writeStrobe false 12),
       BusEv.wait 120] ∧
    ((lcd_init rw pins fuel s).returned = true →
      writeStrobesOf (busView rw s (lcd_init rw pins fuel s).st) =
        [writeStrobe false 3, writeStrobe false 3, writeStrobe false 3, writeStrobe false 2,
         writeStrobe false 2, writeStrobe false 8, writeStrobe false 0, writeStrobe false 8,
         writeStrobe false 0, writeStrobe false 1, writeStrobe false 0, writeStrobe false 6,
         writeStrobe false 0, writeStrobe false 12]) := by
  obtain ⟨hret, hrun⟩ := lcd_init_runs rw pins fuel s
  obtain ⟨hretf, hrunf⟩ := lcd_init_runs false pins fuel s
  refine ⟨?_, hrun.emitted_eq, ?_, ?_, ?_⟩
  · obtain ⟨_, hr⟩ := initReset_runs rw s
    obtain ⟨_, hp⟩ := runPlan_runs rw pins fuel initPlan (initReset rw s) hr.e_low
    obtain ⟨pre, post, he, hrest⟩ := initReset_setup rw s
    refine ⟨pre, post ++ emitted (initReset rw s) (lcd_init rw pins fuel s).st, ?_, hrest⟩
    rw [lcd_init_eq, Runs.emitted_append hr hp, he]
    simp
  · rw [hretf]; exact planReady_fixed _ _ _ _
  · rw [hrunf.emitted_eq]
    simp [resetView, initPlan, planView, transferView, transferRd]
    decide
  · intro h
    rw [hret] at h
    rw [hrun.emitted_eq, writeStrobesOf_append, writeStrobesOf_planView _ _ _ _ _ h]
    simp [resetView, initPlan, stepStrobes, writeStrobesOf, strobesOf, writeStrobe]
    decide

/-! ## Replay against the simulated controller -/

theorem ctrlRun_append (fl : Nat) (c : Ctrl) (a b : List Strobe) :
    ctrlRun fl c (a ++ b) =
      ((ctrlRun fl (ctrlRun fl c a).1 b).1, (ctrlRun fl c a).2 ++ (ctrlRun fl (ctrlRun fl c a).1 b).2) := by
  induction a generalizing c with
  | nil => simp [ctrlRun]
  | cons p r ih => simp [ctrlRun, ih, List.append_assoc]

theorem byte_of_nibbles (v : Nat) : 16 * ((v >>> 4) &&& 0xF) + (v &&& 0xF) = v % 256 := by
  rw [show (0xF : Nat) = 2 ^ 4 - 1 from rfl, Nat.and_pow_two_sub_one_eq_mod,
    Nat.and_pow_two_sub_one_eq_mod, Nat.shiftRight_eq_div_pow]
  omega

/-- The forced-reset strobes bring the controller to 4-bit mode, expecting a
high nibble, from every interface state. -/
theorem ctrl_reset (fl : Nat) (c : Ctrl) :
    (ctrlRun fl c (writeStrobesOf resetView)).1 = Ctrl.fourHi := by
  have e : writeStrobesOf resetView =
      [writeStrobe false 3, writeStrobe false 3, writeStrobe false 3, writeStrobe false 2] := rfl
  rw [e]
  have m8 : ∀ k, (16 * 3 + k % 16) / 32 = 1 ∧ (16 * 3 + k % 16) / 16 % 2 = 1 := by
    intro k; omega
  have m4 : ∀ k, (16 * 2 + k % 16) / 32 = 1 ∧ (16 * 2 + k % 16) / 16 % 2 = 0 := by
    intro k; omega
  cases c with
  | eight =>
    simp [ctrlRun, ctrlStep, ctrlMode, writeStrobe, (m8 fl).1, (m8 fl).2, (m4 fl).1, (m4 fl).2]
  | fourHi =>
    simp [ctrlRun, ctrlStep, ctrlMode, writeStrobe, (m8 fl).1, (m8 fl).2, (m4 fl).1, (m4 fl).2]
  | fourLo h =>
    by_cases h3 : (16 * h + 3) / 32 = 1
    · by_cases h4 : (16 * h + 3) / 16 % 2 = 1
      · simp [ctrlRun, ctrlStep, ctrlMode, writeStrobe, h3, h4, (m8 fl).1, (m8 fl).2,
          (m4 fl).1, (m4 fl).2]
      · simp [ctrlRun, ctrlStep, ctrlMode, writeStrobe, h3, h4, (m8 fl).1, (m8 fl).2,
          (m4 fl).1, (m4 fl).2]
    · simp [ctrlRun, ctrlStep, ctrlMode, writeStrobe, h3, (m8 fl).1, (m8 fl).2,
        (m4 fl).1, (m4 fl).2]

/-- A controller in 4-bit mode expecting a high nibble decodes the two write
strobes of a transfer as the byte sent. -/
theorem ctrl_step_pair (fl : Nat) (rs : Bool) (v : Nat) :
    ctrlRun fl Ctrl.fourHi (stepStrobes (Step.xfer rs v)) =
      (ctrlMode Ctrl.fourHi rs (v % 256), [(rs, v % 256)]) := by
  simp [ctrlRun, ctrlStep, stepStrobes, writeStrobe, byte_of_nibbles]

theorem ctrlMode_stay (rs : Bool) (v : Nat) (h : (Step.xfer rs v).selects8bit = false) :
    ctrlMode Ctrl.fourHi rs (v % 256) = Ctrl.fourHi := by
  simp only [Step.selects8bit, Bool.and_eq_false_iff, Bool.not_eq_false', beq_eq_false_iff_ne,
    ne_eq] at h
  unfold ctrlMode
  by_cases h1 : (!rs && v % 256 / 32 == 1) = true
  · rw [if_pos h1]
    simp only [Bool.and_eq_true, Bool.not_eq_true', beq_iff_eq] at h1
    have h2 : ¬ v % 256 / 16 % 2 = 1 := by
      intro h3
      rcases h with h | h
      · rw [h1.1] at h; cases h
      · omega
    simp [h2]
  · rw [if_neg h1]

/-- A controller in 4-bit mode expecting a high nibble decodes a transfer
sequence without an 8-bit function-set command byte for byte. -/
theorem ctrl_plan (fl : Nat) (steps : List Step)
    (h : ∀ st ∈ steps, st.selects8bit = false) :
    ctrlRun fl Ctrl.fourHi (steps.flatMap stepStrobes) = (Ctrl.fourHi, stepBytes steps) := by
  induction steps with
  | nil => rfl
  | cons st r ih =>
    have hr := ih (fun x hx => h x (List.mem_cons_of_mem _ hx))
    have hs := h st (List.mem_cons_self _ _)
    cases st with
    | xfer rs v =>
      rw [List.flatMap_cons, ctrlRun_append, ctrl_step_pair, ctrlMode_stay rs v hs]
      simp [hr, stepBytes]
    | pause ms =>
      rw [List.flatMap_cons]
      simpa [stepStrobes, stepBytes] using hr

theorem runPlan_append (rw : Bool) (pins : Nat → Nat) (fuel : Nat) (a b : List Step)
    (s : Mcu) :
    runPlan rw pins fuel (a ++ b) s = (runPlan rw pins fuel a s).bind (runPlan rw pins fuel b) := by
  induction a generalizing s with
  | nil => rfl
  | cons st r ih =>
    cases st with
    | xfer rs v =>
      simp only [List.cons_append, runPlan]
      cases transfer rw pins fuel rs v s with
      | ret t => simp [ih]
      | spin t => simp
    | pause ms => exact ih (delay_ms ms s)

/-- `lcd_init` followed by a transfer sequence, from any register contents. -/
theorem init_then_plan_runs (rw : Bool) (pins : Nat → Nat) (fuel : Nat) (steps : List Step)
    (s : Mcu) :
    ((lcd_init rw pins fuel s).bind (runPlan rw pins fuel steps)).returned
      = planReady rw pins fuel s.rd (initPlan ++ steps) ∧
    Runs rw (initReset rw s) ((lcd_init rw pins fuel s).bind (runPlan rw pins fuel steps)).st
      (planView rw pins fuel s.rd (initPlan ++ steps)) ∧
    Runs rw s ((lcd_init rw pins fuel s).bind (runPlan rw pins fuel steps)).st
      (resetView ++ planView rw pins fuel s.rd (initPlan ++ steps)) := by
  obtain ⟨hrd, hrun⟩ := initReset_runs rw s
  obtain ⟨pret, prun⟩ :=
    runPlan_runs rw pins fuel (initPlan ++ steps) (initReset rw s) hrun.e_low
  rw [hrd] at pret prun
  rw [lcd_init_eq, ← runPlan_append]
  exact ⟨pret, prun, Runs.trans hrun prun⟩

set_option maxRecDepth 20000 in
/-- C6, counterexample: a controller in 8-bit mode, fixed-delay build, power-on
registers. After `lcd_init`, `write_cmd(0x30)` is decoded as the function-set
instruction that selects the 8-bit interface, and the following
`write_data(0x41)` is then decoded as the two bytes 0x40 and 0x10 instead of
the byte 0x41. -/
theorem ctrl_misdecodes_after_width_change :
    (ctrlRun 0 Ctrl.eight (writeStrobesOf (busView false Mcu.reset
      ((lcd_init false (fun _ => 0) 0 Mcu.reset).bind fun s =>
        (write_cmd false (fun _ => 0) 0 0x30 s).bind
          (write_data false (fun _ => 0) 0 0x41)).st))) =
      (Ctrl.eight,
        [(false, 0x30), (false, 0x30), (false, 0x30), (false, 0x20),
         (false, 0x28), (false, 0x08), (false, 0x01), (false, 0x06), (false, 0x0C),
         (false, 0x30), (true, 0x40), (true, 0x10)]) := by
  decide

/-- C6, amended: from every interface state of the simulated controller and
every register contents, the four raw strobes of `lcd_init` leave the
controller in 4-bit mode expecting a high nibble; it then decodes the five
configuration commands of `lcd_init` and every later `write_cmd(v)` (step
`xfer false v`) or `write_data(v)` (step `xfer true v`) as exactly the byte `v`
with the register selected by the call, provided none of the later commands is
a function-set instruction selecting the 8-bit interface (0x30..0x3F) and the
calls return. -/
theorem ctrl_decodes_after_init (fl : Nat) (c : Ctrl) (rw : Bool) (pins : Nat → Nat)
    (fuel : Nat) (steps : List Step) (s : Mcu)
    (h8 : ∀ st ∈ steps, st.selects8bit = false)
    (hret : ((lcd_init rw pins fuel s).bind (runPlan rw pins fuel steps)).returned = true) :
    (ctrlRun fl c (writeStrobesOf (busView rw s (initReset rw s)))).1 = Ctrl.fourHi ∧
    ctrlRun fl Ctrl.fourHi (writeStrobesOf (busView rw (initReset rw s)
        ((lcd_init rw pins fuel s).bind (runPlan rw pins fuel steps)).st)) =
      (Ctrl.fourHi,
        [(false, 0x28), (false, 0x08), (false, 0x01), (false, 0x06), (false, 0x0C)]
          ++ stepBytes steps) ∧
    ctrlRun fl c (writeStrobesOf (busView rw s
        ((lcd_init rw pins fuel s).bind (runPlan rw pins fuel steps)).st)) =
      (Ctrl.fourHi,
        (ctrlRun fl c (writeStrobesOf (busView rw s (initReset rw s)))).2 ++
          [(false, 0x28), (false, 0x08), (false, 0x01), (false, 0x06), (false, 0x0C)]
          ++ stepBytes steps) := by
  obtain ⟨pret, prun, hrun⟩ := init_then_plan_runs rw pins fuel steps s
  rw [hret] at pret
  have hall : ∀ st ∈ initPlan ++ steps, st.selects8bit = false := by
    intro st hst
    rcases List.mem_append.1 hst with h | h
    · have hi : ∀ x ∈ initPlan, x.selects8bit = false := by decide
      exact hi st h
    · exact h8 st h
  have hb : stepBytes (initPlan ++ steps) =
      [(false, 0x28), (false, 0x08), (false, 0x01), (false, 0x06), (false, 0x0C)]
        ++ stepBytes steps := by
    simp [initPlan, stepBytes]
  have hdec := ctrl_plan fl (initPlan ++ steps) hall
  rw [hb] at hdec
  rw [(initReset_runs rw s).2.emitted_eq, prun.emitted_eq, hrun.emitted_eq,
    writeStrobesOf_append, writeStrobesOf_planView _ _ _ _ _ pret.symm, ctrlRun_append,
    ctrl_reset, hdec]
  simp

/-- Instance of `ctrl_decodes_after_init`: a controller left in 4-bit mode
waiting for the low nibble after a high nibble 7, fixed-delay build;
`write_cmd(0x80)` then `write_data(0x41)` after `lcd_init`. -/
theorem ctrl_decodes_after_init_witness :
    ctrlRun 0 Ctrl.fourHi (writeStrobesOf (busView false (initReset false Mcu.reset)
        ((lcd_init false (fun _ => 0) 0 Mcu.reset).bind
          (runPlan false (fun _ => 0) 0 [Step.xfer false 0x80, Step.xfer true 0x41])).st)) =
      (Ctrl.fourHi,
        [(false, 0x28), (false, 0x08), (false, 0x01), (false, 0x06), (false, 0x0C)]
          ++ stepBytes [Step.xfer false 0x80, Step.xfer true 0x41]) :=
  (ctrl_decodes_after_init 0 (Ctrl.fourLo 7) false (fun _ => 0) 0
    [Step.xfer false 0x80, Step.xfer true 0x41] Mcu.reset (by decide) (by decide)).2.1

/-! ## Public functions as transfer sequences -/

/-- The value of a signed `char` lies in -128..127. -/
theorem charVal_range (b : Nat) : -128 ≤ charVal b ∧ charVal b ≤ 127 := by
  unfold charVal
  split <;> omega

theorem toByte_charVal (b : Nat) : toByte (charVal b) = b % 256 := by
  unfold toByte charVal
  split <;> omega

/-- A signed `char` never compares equal to `0xFF`: only a zero byte ends the
loop of `lcd_str_E`. -/
theorem charVal_end_iff (b : Nat) : (charVal b = 0 ∨ charVal b = 0xFF) ↔ b % 256 = 0 := by
  unfold charVal
  split <;> omega

/-- `lcd_char` is one `write_data` call with the byte of its argument: the
test `(c >= 0x80) && (c <= 0x87)` is false for every signed `char`. -/
theorem lcd_char_eq (rw : Bool) (pins : Nat → Nat) (fuel c : Nat) (s : Mcu) :
    lcd_char rw pins fuel c s = write_data rw pins fuel (charByte c) s := by
  have h : ¬ (charVal c ≥ 0x80 ∧ charVal c ≤ 0x87) := by
    have := charVal_range c
    omega
  simp only [lcd_char, h, if_false, toByte_charVal, charByte]

theorem lcd_str_eq (rw : Bool) (pins : Nat → Nat) (fuel : Nat) (cs : List Nat) (s : Mcu) :
    lcd_str rw pins fuel cs s = runPlan rw pins fuel (strPlan cs) s := by
  induction cs generalizing s with
  | nil => rfl
  | cons c r ih =>
    by_cases h : c ≠ 0
    · simp only [lcd_str, strPlan, h, ne_eq, not_false_eq_true, if_true, runPlan]
      have : lcd_str rw pins fuel r = runPlan rw pins fuel (strPlan r) := funext ih
      rw [this, lcd_char_eq]; rfl
    · simp only [lcd_str, strPlan, h, if_false, runPlan]

theorem lcd_str_P_eq (rw : Bool) (pins : Nat → Nat) (fuel : Nat) (cs : List Nat) (s : Mcu) :
    lcd_str_P rw pins fuel cs s = runPlan rw pins fuel (strPlan cs) s := by
  induction cs generalizing s with
  | nil => rfl
  | cons c r ih =>
    by_cases h : c ≠ 0
    · simp only [lcd_str_P, strPlan, h, ne_eq, not_false_eq_true, if_true, runPlan]
      have : lcd_str_P rw pins fuel r = runPlan rw pins fuel (strPlan r) := funext ih
      rw [this, lcd_char_eq]; rfl
    · simp only [lcd_str_P, strPlan, h, if_false, runPlan]

theorem lcd_str_E_eq (rw : Bool) (pins : Nat → Nat) (fuel : Nat) (cs : List Nat) (s : Mcu) :
    lcd_str_E rw pins fuel cs s = runPlan rw pins fuel (strPlanE cs) s := by
  induction cs generalizing s with
  | nil => rfl
  | cons c r ih =>
    by_cases h : c % 256 = 0
    · have h2 : charVal c = 0 ∨ charVal c = 0xFF := (charVal_end_iff c).2 h
      simp only [lcd_str_E, strPlanE, h, h2, if_true, runPlan]
    · have h2 : ¬ (charVal c = 0 ∨ charVal c = 0xFF) := fun g => h ((charVal_end_iff c).1 g)
      simp only [lcd_str_E, strPlanE, h, h2, if_false, runPlan]
      have : lcd_str_E rw pins fuel r = runPlan rw pins fuel (strPlanE r) := funext ih
      rw [this, lcd_char_eq]; rfl

theorem sendPattern_eq (rw : Bool) (pins : Nat → Nat) (fuel : Nat) (pattern : Nat → Nat)
    (is : List Nat) (s : Mcu) :
    sendPattern rw pins fuel pattern is s =
      runPlan rw pins fuel (is.map (fun i => Step.xfer true (pattern i))) s := by
  induction is generalizing s with
  | nil => rfl
  | cons i r ih =>
    simp only [sendPattern, List.map_cons, runPlan]
    have : sendPattern rw pins fuel pattern r =
        runPlan rw pins fuel (r.map (fun i => Step.xfer true (pattern i))) := funext ih
    rw [this]; rfl

theorem createChar_eq (rw : Bool) (pins : Nat → Nat) (fuel code : Nat) (pattern : Nat → Nat)
    (s : Mcu) :
    lcd_createChar rw pins fuel code pattern s =
      runPlan rw pins fuel (createCharPlan code pattern) s := by
  simp only [lcd_createChar, createCharPlan, runPlan, CMD_SETCGRAMADDR]
  have : sendPattern rw pins fuel pattern (List.range 8) =
      runPlan rw pins fuel ((List.range 8).map (fun i => Step.xfer true (pattern i))) :=
    funext (sendPattern_eq rw pins fuel pattern _)
  rw [this]; rfl

/-- Every public function is its entry part followed by its transfer sequence. -/
theorem Op.run_eq (rw : Bool) (pins : Nat → Nat) (fuel : Nat) (op : Op) (s : Mcu) :
    op.run rw pins fuel s = runPlan rw pins fuel op.plan (op.entry rw s) := by
  cases op with
  | init => exact lcd_init_eq rw pins fuel s
  | clear => rfl
  | home => rfl
  | setCursor x y =>
    simp only [Op.run, Op.plan, Op.entry, lcd_setCursor, runPlan, runPlan_nil,
      Res.bind_ret_right, transfer, Bool.false_eq_true, if_false, CMD_SETDDRAMADDR, DDRAM_LA1,
      DDRAM_LA2]
    by_cases h : y = 1
    · subst h; rfl
    · have e : (match y with | 1 => 64 | x => 0) = 0 := by
        split
        · exact absurd rfl h
        · rfl
      rw [e, if_neg h]
  | displayOnOff v =>
    by_cases h : v ≠ 0 <;>
      simp [Op.run, Op.plan, Op.entry, lcd_displayOnOff, runPlan, runPlan_nil,
        Res.bind_ret_right, transfer, h, CMD_DISPLAYCONTROL, CMD_DISPLAYON, CMD_DISPLAYOFF,
        CMD_CURSOROFF, CMD_BLINKOFF]
  | cursorOnOff v =>
    by_cases h : v ≠ 0 <;>
      simp [Op.run, Op.plan, Op.entry, lcd_cursorOnOff, runPlan, runPlan_nil,
        Res.bind_ret_right, transfer, h, CMD_DISPLAYCONTROL, CMD_DISPLAYON, CMD_CURSORON,
        CMD_CURSOROFF, CMD_BLINKOFF]
  | cursorBlinkOnOff v =>
    by_cases h : v ≠ 0 <;>
      simp [Op.run, Op.plan, Op.entry, lcd_cursorBlinkOnOff, runPlan, runPlan_nil,
        Res.bind_ret_right, transfer, h, CMD_DISPLAYCONTROL, CMD_DISPLAYON, CMD_CURSORON,
        CMD_BLINKON, CMD_BLINKOFF]
  | codmtlor c l =>
    by_cases h : c ≠ 0 <;> by_cases g : l ≠ 0 <;>
      simp [Op.run, Op.plan, Op.entry, lcd_codmtlor, runPlan, runPlan_nil,
        Res.bind_ret_right, transfer, h, g, CMD_CURSORSHIFT, CMD_DISPLAYMOVE, CMD_CURSORMOVE,
        CMD_MOVERIGHT, CMD_MOVELEFT]
  | emlordoi l d =>
    by_cases h : l ≠ 0 <;> by_cases g : d ≠ 0 <;>
      simp [Op.run, Op.plan, Op.entry, lcd_emlordoi, runPlan, runPlan_nil,
        Res.bind_ret_right, transfer, h, g, CMD_ENTRYMODESET, CMD_ENTRYRIGHT, CMD_ENTRYLEFT,
        CMD_ENTRYSHIFTINCREMENT, CMD_ENTRYSHIFTDECREMENT]
  | char c =>
    simp only [Op.run, Op.plan, Op.entry, lcd_char_eq, runPlan, runPlan_nil,
      Res.bind_ret_right, transfer, if_true]
  | str cs => exact lcd_str_eq rw pins fuel cs s
  | str_P cs => exact lcd_str_P_eq rw pins fuel cs s
  | str_E cs => exact lcd_str_E_eq rw pins fuel cs s
  | int16 v => exact lcd_str_eq rw pins fuel _ s
  | uint16 v => exact lcd_str_eq rw pins fuel _ s
  | int32 v => exact lcd_str_eq rw pins fuel _ s
  | uint32 v => exact lcd_str_eq rw pins fuel _ s
  | hex v => exact lcd_str_eq rw pins fuel _ s
  | createChar c p => exact createChar_eq rw pins fuel c p s
  | createChar_P c p => exact createChar_eq rw pins fuel c p s
  | createChar_E c p => exact createChar_eq rw pins fuel c p s

/-- Every public function entered with E low: its bus view, and E low after. -/
theorem Op.runs (rw : Bool) (pins : Nat → Nat) (fuel : Nat) (op : Op) (s : Mcu)
    (hE : s.port.testBit HD44780_IO_E = false) :
    ∃ view, Runs rw s (op.run rw pins fuel s).st view := by
  rw [Op.run_eq]
  have hent : ∃ v0, (op.entry rw s).rd = s.rd ∧ Runs rw s (op.entry rw s) v0 := by
    cases op
    case init => exact ⟨_, initReset_runs rw s⟩
    all_goals exact ⟨[], rfl, Runs.refl rw s hE⟩
  obtain ⟨v0, _, h0⟩ := hent
  obtain ⟨_, h1⟩ := runPlan_runs rw pins fuel op.plan (op.entry rw s) h0.e_low
  exact ⟨_, Runs.trans h0 h1⟩

theorem Runs.pulses {rw : Bool} {s t : Mcu} {v : List BusEv} (h : Runs rw s t v) :
    pulseScan (s.port, none) (emitted s t) = some (t.port, none) := by
  obtain ⟨a, ha, _, hp, _⟩ := h
  simpa [emitted, ha] using hp

/-! ## Clear-display margin -/

/-- C7, counterexample: in the fixed-delay build `write_cmd(0x01)` returns
after a delay of 120 microseconds since its last strobe, less than the 5 ms
clear-display margin. -/
theorem write_cmd_clear_waits_120 :
    (write_cmd false (fun _ => 0) 0 0x01 Mcu.reset).returned = true ∧
    trailingWait (busView false Mcu.reset
      (write_cmd false (fun _ => 0) 0 0x01 Mcu.reset).st) = 120 ∧
    ¬ (5000 ≤ trailingWait (busView false Mcu.reset
      (write_cmd false (fun _ => 0) 0 0x01 Mcu.reset).st)) := by
  decide

/-- C7, amended: in the fixed-delay build `write_cmd(0x01)` itself waits the
ordinary 120 microseconds after its last strobe; the clear-display margin is
added by the caller: `lcd_clear` returns only after a further 5 ms, 5120
microseconds after the last strobe, which is no less than 5 ms and longer
than the 120 microsecond margin of an ordinary command. -/
theorem lcd_clear_margin (pins : Nat → Nat) (fuel : Nat) (s : Mcu)
    (hE : s.port.testBit HD44780_IO_E = false) :
    (write_cmd false pins fuel 0x01 s).returned = true ∧
    trailingWait (busView false s (write_cmd false pins fuel 0x01 s).st) = 120 ∧
    (lcd_clear false pins fuel s).returned = true ∧
    busView false s (lcd_clear false pins fuel s).st =
      [BusEv.strobe (writeStrobe false 0), BusEv.strobe (writeStrobe false 1),
       BusEv.wait 120, BusEv.wait 5000] ∧
    trailingWait (busView false s (lcd_clear false pins fuel s).st) = 5120 ∧
    5000 ≤ trailingWait (busView false s (lcd_clear false pins fuel s).st) ∧
    trailingWait (busView false s (write_cmd false pins fuel 0x01 s).st) <
      trailingWait (busView false s (lcd_clear false pins fuel s).st) := by
  obtain ⟨_, tret, trun⟩ := transfer_runs false pins fuel false 0x01 s hE
  rw [transfer_false] at tret trun
  obtain ⟨cret, crun⟩ := runPlan_runs false pins fuel (Op.plan Op.clear) s hE
  have e : runPlan false pins fuel (Op.plan Op.clear) s = lcd_clear false pins fuel s :=
    (Op.run_eq false pins fuel Op.clear s).symm
  rw [e] at cret crun
  have hv1 : busView false s (write_cmd false pins fuel 0x01 s).st =
      [BusEv.strobe (writeStrobe false 0), BusEv.strobe (writeStrobe false 1),
       BusEv.wait 120] := by
    rw [trun.emitted_eq]; rfl
  have hv2 : busView false s (lcd_clear false pins fuel s).st =
      [BusEv.strobe (writeStrobe false 0), BusEv.strobe (writeStrobe false 1),
       BusEv.wait 120, BusEv.wait 5000] := by
    rw [crun.emitted_eq]; rfl
  rw [hv1, hv2]
  refine ⟨by simpa using tret, by decide, ?_, rfl, by decide, by decide, by decide⟩
  rw [cret]; exact planReady_fixed _ _ _ _

/-- Instance of `lcd_clear_margin`: power-on registers. -/
theorem lcd_clear_margin_witness :
    trailingWait (busView false Mcu.reset (lcd_clear false (fun _ => 0) 0 Mcu.reset).st)
      = 5120 :=
  (lcd_clear_margin (fun _ => 0) 0 Mcu.reset (by decide)).2.2.2.2.1

/-! ## Enable pulses -/

/-- C8: for every public function entered with E low, in either build and
whether or not the call has returned within the budget, the log it produced
passes the pulse shape check: every rise of E is followed by a delay of at
least 2 microseconds before E falls, with no direction write and no other
port write in between and RS, RW, D4..D7 unchanged at the fall; and E is low
in the state reached. -/
theorem enable_pulses_well_formed (rw : Bool) (pins : Nat → Nat) (fuel : Nat) (op : Op)
    (s : Mcu) (hE : s.port.testBit HD44780_IO_E = false) :
    pulseScan (s.port, none) (emitted s (op.run rw pins fuel s).st)
      = some ((op.run rw pins fuel s).st.port, none) ∧
    (op.run rw pins fuel s).st.port.testBit HD44780_IO_E = false := by
  obtain ⟨view, h⟩ := Op.runs rw pins fuel op s hE
  exact ⟨h.pulses, h.e_low⟩

/-- Instance of `enable_pulses_well_formed`: `lcd_clear` in the busy-flag
build against a device that reads ready, from power-on registers. -/
theorem enable_pulses_well_formed_witness :
    pulseScan (Mcu.reset.port, none)
        (emitted Mcu.reset (Op.run true (fun _ => 0) 1 Op.clear Mcu.reset).st)
      = some ((Op.run true (fun _ => 0) 1 Op.clear Mcu.reset).st.port, none) ∧
    (Op.run true (fun _ => 0) 1 Op.clear Mcu.reset).st.port.testBit HD44780_IO_E = false :=
  enable_pulses_well_formed true (fun _ => 0) 1 Op.clear Mcu.reset (by decide)

/-! ## Independence of the prior register contents -/

theorem pollCycles_congr (p q : Nat → Nat) (fuel a b : Nat)
    (h : ∀ k, p (a + k) = q (b + k)) : pollCycles p fuel a = pollCycles q fuel b := by
  induction fuel generalizing a b with
  | zero => rfl
  | succ n ih =>
    have hb : busyAt p a = busyAt q b := by simp only [busyAt, h 3]
    have hn := ih (a + 8) (b + 8) (fun k => by
      have := h (8 + k)
      simpa [Nat.add_assoc] using this)
    simp only [pollCycles, hb, hn]

theorem pollReady_congr (p q : Nat → Nat) (fuel a b : Nat)
    (h : ∀ k, p (a + k) = q (b + k)) : pollReady p fuel a = pollReady q fuel b := by
  induction fuel generalizing a b with
  | zero => rfl
  | succ n ih =>
    have hb : busyAt p a = busyAt q b := by simp only [busyAt, h 3]
    have hn := ih (a + 8) (b + 8) (fun k => by
      have := h (8 + k)
      simpa [Nat.add_assoc] using this)
    simp only [pollReady, hb, hn]

/-- The bus view and the completion of a transfer sequence depend on the
device only through the status responses from the current read on. -/
theorem planView_congr (rw : Bool) (p q : Nat → Nat) (fuel : Nat) (steps : List Step)
    (a b : Nat) (h : rw = true → ∀ k, p (a + k) = q (b + k)) :
    planView rw p fuel a steps = planView rw q fuel b steps ∧
    planReady rw p fuel a steps = planReady rw q fuel b steps := by
  induction steps generalizing a b with
  | nil => exact ⟨rfl, rfl⟩
  | cons st r ih =>
    cases st with
    | pause ms =>
      obtain ⟨h1, h2⟩ := ih a b h
      exact ⟨by simp only [planView, h1], by simp only [planReady, h2]⟩
    | xfer rs v =>
      cases rw with
      | false =>
        obtain ⟨h1, h2⟩ := ih a b (fun e => by cases e)
        refine ⟨?_, ?_⟩
        · simp only [planView, transferView, transferRd, Bool.false_eq_true, if_false,
            Bool.not_false, Bool.true_or, if_true]
          rw [(ih a b (fun e => by cases e)).1]
        · simp only [planReady, transferRd, Bool.false_eq_true, if_false, Bool.not_false,
            Bool.true_or, Bool.true_and]
          exact h2
      | true =>
        have hk := h rfl
        have hc := pollCycles_congr p q fuel a b hk
        have hr := pollReady_congr p q fuel a b hk
        obtain ⟨h1, h2⟩ := ih (a + 8 * pollCycles p fuel a) (b + 8 * pollCycles q fuel b)
          (fun _ k => by
            have := hk (8 * pollCycles p fuel a + k)
            rw [← hc]
            simpa [Nat.add_assoc] using this)
        rw [hc] at h1 h2
        refine ⟨?_, ?_⟩
        · simp only [planView, transferView, transferRd, if_true, hc, hr, h1]
        · simp only [planReady, transferRd, if_true, hc, hr, h2]

/-- C9: `lcd_init` makes no assumption about the prior state. Two runs that
start from arbitrary, different register contents and, in the busy-flag
build, get the same device status responses from their current read on, show
the same sequence of bus events (the levels of RS, RW and D4..D7 at every
strobe, the time E is high, and the delays in between) and both return or
both do not; in particular a second invocation replays the sequence of the
first. -/
theorem lcd_init_independent_of_registers (rw : Bool) (p q : Nat → Nat) (fuel : Nat)
    (s t : Mcu) (h : rw = true → ∀ k, p (s.rd + k) = q (t.rd + k)) :
    busView rw s (lcd_init rw p fuel s).st = busView rw t (lcd_init rw q fuel t).st ∧
    (lcd_init rw p fuel s).returned = (lcd_init rw q fuel t).returned := by
  obtain ⟨r1, v1⟩ := lcd_init_runs rw p fuel s
  obtain ⟨r2, v2⟩ := lcd_init_runs rw q fuel t
  obtain ⟨hv, hr⟩ := planView_congr rw p q fuel initPlan s.rd t.rd h
  rw [v1.emitted_eq, v2.emitted_eq, r1, r2, hv, hr]
  exact ⟨rfl, rfl⟩

/-- Instance of `lcd_init_independent_of_registers`: power-on registers
against registers with every bit set (E high, all lines outputs), busy-flag
build, device ready at once. -/
theorem lcd_init_independent_of_registers_witness :
    busView true Mcu.reset (lcd_init true (fun _ => 0) 1 Mcu.reset).st =
      busView true ⟨0xFF, 0xFF, 0, []⟩ (lcd_init true (fun _ => 0) 1 ⟨0xFF, 0xFF, 0, []⟩).st :=
  (lcd_init_independent_of_registers true (fun _ => 0) (fun _ => 0) 1 Mcu.reset
    ⟨0xFF, 0xFF, 0, []⟩ (fun _ _ => rfl)).1

/-! ## Command bytes of the display helpers -/

/-- C10: each of `lcd_displayOnOff`, `lcd_cursorOnOff`, `lcd_cursorBlinkOnOff`
and `lcd_codmtlor` is one `write_cmd` call whose byte depends only on whether
each argument is zero; the flag bits are disjoint from each other and from the
opcode bit, so the byte lies in 0x08..0x0F (highest set bit 3) for
display-control and in 0x10..0x1F (highest set bit 4) for cursor/display
shift. -/
theorem display_helper_bytes (rw : Bool) (pins : Nat → Nat) (fuel v cod lor : Nat) (s : Mcu) :
    lcd_displayOnOff rw pins fuel v s =
      write_cmd rw pins fuel (if v ≠ 0 then 0x0C else 0x08) s ∧
    lcd_cursorOnOff rw pins fuel v s =
      write_cmd rw pins fuel (if v ≠ 0 then 0x0E else 0x0C) s ∧
    lcd_cursorBlinkOnOff rw pins fuel v s =
      write_cmd rw pins fuel (if v ≠ 0 then 0x0F else 0x0E) s ∧
    lcd_codmtlor rw pins fuel cod lor s =
      write_cmd rw pins fuel
        (0x10 ||| (if cod ≠ 0 then 0x08 else 0) ||| (if lor ≠ 0 then 0x04 else 0)) s ∧
    (CMD_DISPLAYON &&& CMD_CURSORON = 0 ∧ CMD_DISPLAYON &&& CMD_BLINKON = 0 ∧
      CMD_CURSORON &&& CMD_BLINKON = 0 ∧
      CMD_DISPLAYCONTROL &&& (CMD_DISPLAYON ||| CMD_CURSORON ||| CMD_BLINKON) = 0 ∧
      CMD_DISPLAYMOVE &&& CMD_MOVERIGHT = 0 ∧
      CMD_CURSORSHIFT &&& (CMD_DISPLAYMOVE ||| CMD_MOVERIGHT) = 0) ∧
    (8 ≤ (if v ≠ 0 then 0x0C else 0x08) ∧ (if v ≠ 0 then 0x0C else 0x08) < 16 ∧
      8 ≤ (if v ≠ 0 then 0x0E else 0x0C) ∧ (if v ≠ 0 then 0x0E else 0x0C) < 16 ∧
      8 ≤ (if v ≠ 0 then 0x0F else 0x0E) ∧ (if v ≠ 0 then 0x0F else 0x0E) < 16) ∧
    (16 ≤ (0x10 ||| (if cod ≠ 0 then 0x08 else 0) ||| (if lor ≠ 0 then 0x04 else 0)) ∧
      (0x10 ||| (if cod ≠ 0 then 0x08 else 0) ||| (if lor ≠ 0 then 0x04 else 0)) < 32) := by
  refine ⟨?_, ?_, ?_, ?_, by decide, ?_, ?_⟩
  · by_cases h : v ≠ 0 <;>
      simp [lcd_displayOnOff, h, CMD_DISPLAYCONTROL, CMD_DISPLAYON, CMD_DISPLAYOFF,
        CMD_CURSOROFF, CMD_BLINKOFF]
  · by_cases h : v ≠ 0 <;>
      simp [lcd_cursorOnOff, h, CMD_DISPLAYCONTROL, CMD_DISPLAYON, CMD_CURSORON,
        CMD_CURSOROFF, CMD_BLINKOFF]
  · by_cases h : v ≠ 0 <;>
      simp [lcd_cursorBlinkOnOff, h, CMD_DISPLAYCONTROL, CMD_DISPLAYON, CMD_CURSORON,
        CMD_BLINKON, CMD_BLINKOFF]
  · by_cases h : cod ≠ 0 <;> by_cases g : lor ≠ 0 <;>
      simp [lcd_codmtlor, h, g, CMD_CURSORSHIFT, CMD_DISPLAYMOVE, CMD_CURSORMOVE,
        CMD_MOVERIGHT, CMD_MOVELEFT]
  · by_cases h : v ≠ 0 <;> simp [h]
  · by_cases h : cod ≠ 0 <;> by_cases g : lor ≠ 0 <;> simp [h, g]

/-! ## Command and data bytes of the remaining helpers -/

/-- C11, counterexample: `lcd_emlordoi(0, 1)` (doi = Increment) sends 0x04,
whose I/D bit (bit 1) is clear, and `lcd_emlordoi(1, 0)` (doi = Decrement)
sends 0x07, whose I/D bit is set. -/
theorem emlordoi_id_bit_not_from_doi :
    lcd_emlordoi false (fun _ => 0) 0 0 1 Mcu.reset =
      write_cmd false (fun _ => 0) 0 0x04 Mcu.reset ∧
    Nat.testBit 0x04 1 = false ∧
    lcd_emlordoi false (fun _ => 0) 0 1 0 Mcu.reset =
      write_cmd false (fun _ => 0) 0 0x07 Mcu.reset ∧
    Nat.testBit 0x07 1 = true :=
  ⟨rfl, by decide, rfl, by decide⟩

/-- C11, amended: `lcd_emlordoi(lor, doi)` is one `write_cmd` call with an
entry-mode-set byte (bits 7..2 are 000001); its bit 1 (I/D) is set exactly
when `lor` is nonzero and its bit 0 (S) is set exactly when `doi` is zero;
with both arguments 1 the byte is 0x06, the entry mode `lcd_init` sends. -/
theorem emlordoi_byte (rw : Bool) (pins : Nat → Nat) (fuel lor doi : Nat) (s : Mcu) :
    lcd_emlordoi rw pins fuel lor doi s =
      write_cmd rw pins fuel
        (0x04 ||| (if lor ≠ 0 then 0x02 else 0) ||| (if doi ≠ 0 then 0 else 0x01)) s ∧
    (0x04 ||| (if lor ≠ 0 then 0x02 else 0) ||| (if doi ≠ 0 then 0 else 0x01)) / 4 = 1 ∧
    Nat.testBit (0x04 ||| (if lor ≠ 0 then 0x02 else 0) ||| (if doi ≠ 0 then 0 else 0x01)) 1
      = decide (lor ≠ 0) ∧
    Nat.testBit (0x04 ||| (if lor ≠ 0 then 0x02 else 0) ||| (if doi ≠ 0 then 0 else 0x01)) 0
      = decide (doi = 0) ∧
    lcd_emlordoi rw pins fuel 1 1 s = write_cmd rw pins fuel 0x06 s ∧
    Step.xfer false 0x06 ∈ initPlan ∧
    CMD_ENTRYMODESET ||| CMD_ENTRYRIGHT ||| CMD_ENTRYSHIFTINCREMENT = 0x06 := by
  refine ⟨?_, ?_, ?_, ?_, rfl, by decide, by decide⟩
  · by_cases h : lor ≠ 0 <;> by_cases g : doi ≠ 0 <;>
      simp [lcd_emlordoi, h, g, CMD_ENTRYMODESET, CMD_ENTRYRIGHT, CMD_ENTRYLEFT,
        CMD_ENTRYSHIFTINCREMENT, CMD_ENTRYSHIFTDECREMENT]
  · by_cases h : lor = 0 <;> by_cases g : doi = 0 <;> simp [h, g]
  · by_cases h : lor = 0 <;> by_cases g : doi = 0 <;> simp [h, g] <;> decide
  · by_cases h : lor = 0 <;> by_cases g : doi = 0 <;> simp [h, g]

/-- C12: in the shipped configuration (16 columns, 2 rows), for every column
`x < 16` and row `y` in {0, 1}, `lcd_setCursor(x, y)` is one `write_cmd` call
with the byte `0x80 | (x + 0x40*y)`; and for every row index `y >= 2` it is
the same call as for row 0. -/
theorem setCursor_byte (rw : Bool) (pins : Nat → Nat) (fuel x y : Nat) (s : Mcu)
    (hx : x < 16) (hy : y ≤ 1) :
    HD44780_COLUMNS = 16 ∧ HD44780_ROWS = 2 ∧
    lcd_setCursor rw pins fuel x y s = write_cmd rw pins fuel (0x80 ||| (x + 0x40 * y)) s ∧
    0x80 ||| (x + 0x40 * y) = 0x80 + (if y = 1 then DDRAM_LA2 else DDRAM_LA1) + x ∧
    ∀ x2 y2, 2 ≤ y2 →
      lcd_setCursor rw pins fuel x2 y2 s = lcd_setCursor rw pins fuel x2 0 s := by
  have hb : ∀ a, a < 16 → ∀ b, b ≤ 1 →
      (0x80 + a + (if b = 1 then 0x40 else 0)) % 256 = 0x80 ||| (a + 0x40 * b) := by
    decide
  refine ⟨rfl, rfl, ?_, ?_, ?_⟩
  · rw [← hb x hx y hy]
    have hy2 : y = 0 ∨ y = 1 := by omega
    rcases hy2 with h | h <;> subst h <;> rfl
  · rw [← hb x hx y hy]
    have hy2 : y = 0 ∨ y = 1 := by omega
    rcases hy2 with h | h <;> subst h <;> simp [DDRAM_LA1, DDRAM_LA2] <;> omega
  · intro x2 y2 h2
    obtain ⟨k, rfl⟩ : ∃ k, y2 = k + 2 := ⟨y2 - 2, by omega⟩
    rfl

/-- Instance of `setCursor_byte`: `lcd_setCursor(5, 1)` sends 0xC5. -/
theorem setCursor_byte_witness :
    lcd_setCursor true (fun _ => 0) 1 5 1 Mcu.reset =
      write_cmd true (fun _ => 0) 1 0xC5 Mcu.reset :=
  (setCursor_byte true (fun _ => 0) 1 5 1 Mcu.reset (by decide) (by decide)).2.2.1

/-- C13, the code at the failing input: `char` being signed, the test
`(c >= 0x80) && (c <= 0x87)` of `lcd_char` is false for every argument and the
mask is never applied. `lcd_char` is one `write_data` call with the byte of
its argument: for `k` in 0..7 the character code `0x80 + k` is sent as the
data byte `0x80 + k`, not `k`; on the bus `lcd_char(0x80)` shows the nibbles 8
and 0 with RS high; and the string " \x80\x81\x82 " of the example program is
sent as the data bytes 0x20, 0x80, 0x81, 0x82, 0x20. -/
theorem lcd_char_sends_unmasked (rw : Bool) (pins : Nat → Nat) (fuel : Nat) (s : Mcu) :
    (∀ c, ¬ (charVal c ≥ 0x80 ∧ charVal c ≤ 0x87)) ∧
    (∀ c, lcd_char rw pins fuel c s = write_data rw pins fuel (c % 256) s) ∧
    (∀ k, k < 8 →
      lcd_char rw pins fuel (0x80 + k) s = write_data rw pins fuel (0x80 + k) s ∧
      0x80 + k ≠ k) ∧
    (writeStrobesOf (busView false Mcu.reset
        (lcd_char false (fun _ => 0) 0 0x80 Mcu.reset).st)).map (fun p => (p.rs, p.nib))
      = [(true, 8), (true, 0)] ∧
    lcd_str rw pins fuel [0x20, 0x80, 0x81, 0x82, 0x20] s =
      runPlan rw pins fuel
        [Step.xfer true 0x20, Step.xfer true 0x80, Step.xfer true 0x81, Step.xfer true 0x82,
         Step.xfer true 0x20] s := by
  refine ⟨?_, ?_, ?_, by decide, by rw [lcd_str_eq]; rfl⟩
  · intro c
    have := charVal_range c
    omega
  · intro c
    exact lcd_char_eq rw pins fuel c s
  · intro k hk
    refine ⟨?_, by omega⟩
    rw [lcd_char_eq, charByte]
    have e : (0x80 + k) % 256 = 0x80 + k := by omega
    rw [e]

/-- C14: `lcd_createChar(code, p)` is the transfer sequence of one command
byte `0x40 | ((code & 0x07) << 3)` followed by the eight data bytes
`p[0] .. p[7]` in this order and nothing else; the command byte is
`0x40 + 8 * (code mod 8)`, one of 0x40, 0x48, .., 0x78, with bit 7 clear; the
codes `0x80 + k` and `k` give the same command byte. -/
theorem createChar_bytes (rw : Bool) (pins : Nat → Nat) (fuel code : Nat)
    (pattern : Nat → Nat) (s : Mcu) :
    lcd_createChar rw pins fuel code pattern s =
      runPlan rw pins fuel
        [Step.xfer false (0x40 ||| ((code &&& 0x07) <<< 3)),
         Step.xfer true (pattern 0), Step.xfer true (pattern 1), Step.xfer true (pattern 2),
         Step.xfer true (pattern 3), Step.xfer true (pattern 4), Step.xfer true (pattern 5),
         Step.xfer true (pattern 6), Step.xfer true (pattern 7)] s ∧
    0x40 ||| ((code &&& 0x07) <<< 3) = 0x40 + 8 * (code % 8) ∧
    0x40 ||| ((code &&& 0x07) <<< 3) ∈ [0x40, 0x48, 0x50, 0x58, 0x60, 0x68, 0x70, 0x78] ∧
    Nat.testBit (0x40 ||| ((code &&& 0x07) <<< 3)) 7 = false ∧
    0x40 ||| (((0x80 + code) &&& 0x07) <<< 3) = 0x40 ||| ((code &&& 0x07) <<< 3) ∧
    (0x40 ||| ((0x80 &&& 0x07) <<< 3) = 0x40 ∧ 0x40 ||| ((0x81 &&& 0x07) <<< 3) = 0x48 ∧
      0x40 ||| ((0x82 &&& 0x07) <<< 3) = 0x50) := by
  have hm : code &&& 0x07 = code % 8 := by
    rw [show (0x07 : Nat) = 2 ^ 3 - 1 from rfl, Nat.and_pow_two_sub_one_eq_mod]
  have hm2 : (0x80 + code) &&& 0x07 = code % 8 := by
    rw [show (0x07 : Nat) = 2 ^ 3 - 1 from rfl, Nat.and_pow_two_sub_one_eq_mod]
    omega
  have hall : ∀ j, j < 8 →
      (0x40 ||| (j <<< 3) = 0x40 + 8 * j ∧
       0x40 ||| (j <<< 3) ∈ [0x40, 0x48, 0x50, 0x58, 0x60, 0x68, 0x70, 0x78] ∧
       Nat.testBit (0x40 ||| (j <<< 3)) 7 = false) := by
    decide
  have hj : code % 8 < 8 := Nat.mod_lt _ (by decide)
  rw [hm2, hm]
  refine ⟨?_, (hall _ hj).1, (hall _ hj).2.1, (hall _ hj).2.2, rfl, by decide⟩
  rw [← hm, createChar_eq]
  rfl

/-- C15, counterexample: in a build configured for one display line
(`HD44780_ROWS` = 1) the function-set byte of `lcd_init` is still 0x28, whose
line-count bit (bit 3) is set. -/
theorem function_set_ignores_rows :
    (⟨1, 16, true⟩ : Config).rows = 1 ∧
    initFunctionSet ⟨1, 16, true⟩ = 0x28 ∧
    Nat.testBit (initFunctionSet ⟨1, 16, true⟩) 3 = true := by
  decide

/-- C15, amended: whatever the build-time settings, the function-set byte
`lcd_init` sends is the constant 0x28: interface-width bit (bit 4) clear
(4-bit), line-count bit (bit 3) set (two lines), glyph-size bit (bit 2) clear
(5x8); it is the first byte `lcd_init` transfers after the forced reset. -/
theorem function_set_constant (cfg : Config) (rw : Bool) (pins : Nat → Nat) (fuel : Nat)
    (s : Mcu) :
    initFunctionSet cfg = 0x28 ∧
    Nat.testBit (initFunctionSet cfg) 4 = false ∧
    Nat.testBit (initFunctionSet cfg) 3 = true ∧
    Nat.testBit (initFunctionSet cfg) 2 = false ∧
    initPlan.head? = some (Step.xfer false (initFunctionSet cfg)) ∧
    lcd_init rw pins fuel s = runPlan rw pins fuel initPlan (initReset rw s) := by
  have e : initFunctionSet cfg = 0x28 := rfl
  rw [e]
  exact ⟨rfl, by decide, by decide, by decide, rfl, lcd_init_eq rw pins fuel s⟩

/-! ## The busy-flag poll -/

theorem byte_of_bits : ∀ b0 b1 b2 b3 b4 b5 b6 b7 : Bool,
    ((((((((0 ||| (if b4 then 16 else 0)) ||| (if b5 then 32 else 0)) ||| (if b6 then 64 else 0))
      ||| (if b7 then 128 else 0)) ||| (if b0 then 1 else 0)) ||| (if b1 then 2 else 0))
      ||| (if b2 then 4 else 0)) ||| (if b3 then 8 else 0))
      = 16 * nibOf b4 b5 b6 b7 + nibOf b0 b1 b2 b3 := by
  decide

/-- The byte `read8bits` returns: high nibble from the first four reads, low
nibble from the next four. -/
theorem read8bits_value (pins : Nat → Nat) (s : Mcu) :
    (read8bits pins s).1 =
      16 * sampleNib (pins s.rd) (pins (s.rd + 1)) (pins (s.rd + 2)) (pins (s.rd + 3)) +
        sampleNib (pins (s.rd + 4)) (pins (s.rd + 5)) (pins (s.rd + 6)) (pins (s.rd + 7)) := by
  simp only [read8bits, READ_D4, READ_D5, READ_D6, READ_D7, rdPIN, SET_RW, SET_E, CLR_E,
    wrDDR, wrPORT, delay_us, ite_or, sampleNib, Nat.add_assoc]
  have h := byte_of_bits
    (decide (pins (s.rd + 4) % 256 &&& (1 <<< HD44780_IO_D4) ≠ 0))
    (decide (pins (s.rd + 5) % 256 &&& (1 <<< HD44780_IO_D5) ≠ 0))
    (decide (pins (s.rd + 6) % 256 &&& (1 <<< HD44780_IO_D6) ≠ 0))
    (decide (pins (s.rd + 7) % 256 &&& (1 <<< HD44780_IO_D7) ≠ 0))
    (decide (pins s.rd % 256 &&& (1 <<< HD44780_IO_D4) ≠ 0))
    (decide (pins (s.rd + 1) % 256 &&& (1 <<< HD44780_IO_D5) ≠ 0))
    (decide (pins (s.rd + 2) % 256 &&& (1 <<< HD44780_IO_D6) ≠ 0))
    (decide (pins (s.rd + 3) % 256 &&& (1 <<< HD44780_IO_D7) ≠ 0))
  simp only [decide_eq_true_eq] at h
  exact h

/-- The log of one `read8bits` call. -/
theorem read8bits_trace (pins : Nat → Nat) (s : Mcu) :
    emitted s (read8bits pins s).2 =
      [Event.ddr (bitClr s.ddr HD44780_IO_D4),
       Event.ddr (bitClr (bitClr s.ddr HD44780_IO_D4) HD44780_IO_D5),
       Event.ddr (bitClr (bitClr (bitClr s.ddr HD44780_IO_D4) HD44780_IO_D5) HD44780_IO_D6),
       Event.ddr (bitClr (bitClr (bitClr (bitClr s.ddr HD44780_IO_D4) HD44780_IO_D5)
         HD44780_IO_D6) HD44780_IO_D7),
       Event.port (bitSet s.port HD44780_IO_RW),
       Event.port (bitSet (bitSet s.port HD44780_IO_RW) HD44780_IO_E),
       Event.delay_us 2,
       Event.pin (pins s.rd % 256), Event.pin (pins (s.rd + 1) % 256),
       Event.pin (pins (s.rd + 2) % 256), Event.pin (pins (s.rd + 3) % 256),
       Event.port (bitClr (bitSet (bitSet s.port HD44780_IO_RW) HD44780_IO_E) HD44780_IO_E),
       Event.port (bitSet (bitClr (bitSet (bitSet s.port HD44780_IO_RW) HD44780_IO_E)
         HD44780_IO_E) HD44780_IO_E),
       Event.delay_us 2,
       Event.pin (pins (s.rd + 4) % 256), Event.pin (pins (s.rd + 5) % 256),
       Event.pin (pins (s.rd + 6) % 256), Event.pin (pins (s.rd + 7) % 256),
       Event.port (bitClr (bitSet (bitClr (bitSet (bitSet s.port HD44780_IO_RW) HD44780_IO_E)
         HD44780_IO_E) HD44780_IO_E) HD44780_IO_E)] := by
  simp only [read8bits, READ_D4, READ_D5, READ_D6, READ_D7, rdPIN, SET_RW, SET_E, CLR_E,
    wrDDR, wrPORT, delay_us, emitted, List.append_assoc, List.singleton_append,
    List.cons_append, List.nil_append, List.drop_left, Nat.add_assoc]

/-- The loop runs `n + 1` cycles when the first `n` status reads are busy and
the next one is ready. -/
theorem pollCycles_first_ready (pins : Nat → Nat) (fuel rd n : Nat) (hn : n < fuel)
    (hb : ∀ i, i < n → busyAt pins (rd + 8 * i) = true)
    (hr : busyAt pins (rd + 8 * n) = false) :
    pollCycles pins fuel rd = n + 1 ∧ pollReady pins fuel rd = true := by
  induction fuel generalizing rd n with
  | zero => omega
  | succ f ih =>
    cases n with
    | zero =>
      have h0 : busyAt pins rd = false := by simpa using hr
      simp [pollCycles, pollReady, h0]
    | succ m =>
      have h0 : busyAt pins rd = true := by simpa using hb 0 (by omega)
      have := ih (rd + 8) m (by omega)
        (fun i hi => by
          have := hb (i + 1) (by omega)
          rw [show rd + 8 * (i + 1) = rd + 8 + 8 * i from by ring] at this
          exact this)
        (by rw [show rd + 8 + 8 * m = rd + 8 * (m + 1) from by ring]; exact hr)
      simp [pollCycles, pollReady, h0, this.1, this.2]
      omega

/-- The loop uses up any budget when every status read is busy. -/
theorem pollCycles_all_busy (pins : Nat → Nat) (fuel rd : Nat)
    (hb : ∀ i, i < fuel → busyAt pins (rd + 8 * i) = true) :
    pollCycles pins fuel rd = fuel ∧ pollReady pins fuel rd = false := by
  induction fuel generalizing rd with
  | zero => exact ⟨rfl, rfl⟩
  | succ f ih =>
    have h0 : busyAt pins rd = true := by simpa using hb 0 (by omega)
    have := ih (rd + 8) (fun i hi => by
      have := hb (i + 1) (by omega)
      rw [show rd + 8 * (i + 1) = rd + 8 + 8 * i from by ring] at this
      exact this)
    simp [pollCycles, pollReady, h0, this.1, this.2]
    omega


/-- C16: in the busy-flag build. One `read8bits` cycle is two read strobes;
in each, the four `PINA` reads come after E was raised and 2 microseconds were
waited and before E is lowered; the result is `16 * high + low` with D4..D7
giving bits 0..3 of each nibble, and its bit 7 is the D7 sample of the first
strobe. After its two write strobes a transfer polls with RS low: if the
first `n - 1` cycles read busy and the `n`-th reads ready (`1 <= n`, within the
budget), the call returns after exactly `n` cycles, that is `2n` read strobes
and `8n` reads of `PINA`. Against a device that always reads busy the call has
not returned after any number `m` of cycles, having made `2m` read strobes. -/
theorem busy_poll_cycles (pins : Nat → Nat) (fuel : Nat) (rs : Bool) (v : Nat) (s : Mcu)
    (hE : s.port.testBit HD44780_IO_E = false) :
    (∀ u : Mcu,
      (read8bits pins u).1 =
        16 * sampleNib (pins u.rd) (pins (u.rd + 1)) (pins (u.rd + 2)) (pins (u.rd + 3)) +
          sampleNib (pins (u.rd + 4)) (pins (u.rd + 5)) (pins (u.rd + 6)) (pins (u.rd + 7)) ∧
      (((read8bits pins u).1 &&& CMD_BUSYFLAG ≠ 0) ↔ busyAt pins u.rd = true) ∧
      emitted u (read8bits pins u).2 =
        [Event.ddr (bitClr u.ddr HD44780_IO_D4),
         Event.ddr (bitClr (bitClr u.ddr HD44780_IO_D4) HD44780_IO_D5),
         Event.ddr (bitClr (bitClr (bitClr u.ddr HD44780_IO_D4) HD44780_IO_D5) HD44780_IO_D6),
         Event.ddr (bitClr (bitClr (bitClr (bitClr u.ddr HD44780_IO_D4) HD44780_IO_D5)
           HD44780_IO_D6) HD44780_IO_D7),
         Event.port (bitSet u.port HD44780_IO_RW),
         Event.port (bitSet (bitSet u.port HD44780_IO_RW) HD44780_IO_E),
         Event.delay_us 2,
         Event.pin (pins u.rd % 256), Event.pin (pins (u.rd + 1) % 256),
         Event.pin (pins (u.rd + 2) % 256), Event.pin (pins (u.rd + 3) % 256),
         Event.port (bitClr (bitSet (bitSet u.port HD44780_IO_RW) HD44780_IO_E) HD44780_IO_E),
         Event.port (bitSet (bitClr (bitSet (bitSet u.port HD44780_IO_RW) HD44780_IO_E)
           HD44780_IO_E) HD44780_IO_E),
         Event.delay_us 2,
         Event.pin (pins (u.rd + 4) % 256), Event.pin (pins (u.rd + 5) % 256),
         Event.pin (pins (u.rd + 6) % 256), Event.pin (pins (u.rd + 7) % 256),
         Event.port (bitClr (bitSet (bitClr (bitSet (bitSet u.port HD44780_IO_RW)
           HD44780_IO_E) HD44780_IO_E) HD44780_IO_E) HD44780_IO_E)]) ∧
    (∀ n, 1 ≤ n → n ≤ fuel →
      (∀ i, i + 1 < n → busyAt pins (s.rd + 8 * i) = true) →
      busyAt pins (s.rd + 8 * (n - 1)) = false →
        (transfer true pins fuel rs v s).returned = true ∧
        strobesOf (busView true s (transfer true pins fuel rs v s).st) =
          [writeStrobe rs ((v >>> 4) &&& 0xF), writeStrobe rs (v &&& 0xF)] ++
            List.replicate (2 * n) readStrobe ∧
        (transfer true pins fuel rs v s).st.rd = s.rd + 8 * n) ∧
    ((∀ i, busyAt pins (s.rd + 8 * i) = true) →
      ∀ m, (transfer true pins m rs v s).returned = false ∧
        strobesOf (busView true s (transfer true pins m rs v s).st) =
          [writeStrobe rs ((v >>> 4) &&& 0xF), writeStrobe rs (v &&& 0xF)] ++
            List.replicate (2 * m) readStrobe) := by
  refine ⟨fun u => ⟨read8bits_value pins u, read8bits_busy pins u, read8bits_trace pins u⟩,
    ?_, ?_⟩
  · intro n h1 hn hb hr
    obtain ⟨k, rfl⟩ : ∃ k, n = k + 1 := ⟨n - 1, by omega⟩
    obtain ⟨hc, hrdy⟩ := pollCycles_first_ready pins fuel s.rd k (by omega)
      (fun i hi => hb i (by omega)) (by simpa using hr)
    obtain ⟨trd, tret, trun⟩ := transfer_runs true pins fuel rs v s hE
    refine ⟨by simp [tret, hrdy], ?_, by simp [trd, transferRd, hc]⟩
    rw [trun.emitted_eq, strobesOf_transferView]
    simp [hc]
  · intro hb m
    obtain ⟨hc, hrdy⟩ := pollCycles_all_busy pins m s.rd (fun i _ => hb i)
    obtain ⟨_, tret, trun⟩ := transfer_runs true pins m rs v s hE
    refine ⟨by simp [tret, hrdy], ?_⟩
    rw [trun.emitted_eq, strobesOf_transferView]
    simp [hc]

/-- Instance of `busy_poll_cycles`: `write_cmd(0x01)` against a device that
reads busy in the first cycle and ready in the second. -/
theorem busy_poll_cycles_witness :
    (transfer true (fun k => if k < 11 then 0xFF else 0) 5 false 0x01 Mcu.reset).returned = true ∧
    strobesOf (busView true Mcu.reset
        (transfer true (fun k => if k < 11 then 0xFF else 0) 5 false 0x01 Mcu.reset).st) =
      [writeStrobe false ((0x01 >>> 4) &&& 0xF), writeStrobe false (0x01 &&& 0xF)] ++
        List.replicate (2 * 2) readStrobe ∧
    (transfer true (fun k => if k < 11 then 0xFF else 0) 5 false 0x01 Mcu.reset).st.rd
      = Mcu.reset.rd + 8 * 2 :=
  (busy_poll_cycles (fun k => if k < 11 then 0xFF else 0) 5 false 0x01 Mcu.reset
    (by decide)).2.1 2 (by decide) (by decide)
    (fun i hi => by
      have h0 : i = 0 := by omega
      subst h0
      decide)
    (by decide)


/-! ## Direction of the data lines -/

/-- The strobes of one transfer are coherent. -/
theorem coherent_transferView (rw : Bool) (pins : Nat → Nat) (fuel rd : Nat) (rs : Bool)
    (v : Nat) : ∀ p ∈ strobesOf (transferView rw pins fuel rd rs v), p.coherent := by
  intro p hp
  rw [strobesOf_transferView] at hp
  simp only [List.cons_append, List.nil_append, List.mem_cons, List.mem_replicate] at hp
  rcases hp with h | h | h
  · subst h; exact Or.inl ⟨rfl, rfl⟩
  · subst h; exact Or.inl ⟨rfl, rfl⟩
  · rw [h.2]; exact Or.inr ⟨rfl, rfl⟩

/-- The strobes of a transfer sequence are coherent. -/
theorem coherent_planView (rw : Bool) (pins : Nat → Nat) (fuel : Nat) (steps : List Step)
    (rd : Nat) : ∀ p ∈ strobesOf (planView rw pins fuel rd steps), p.coherent := by
  induction steps generalizing rd with
  | nil => intro p hp; cases hp
  | cons st r ih =>
    cases st with
    | xfer rs v =>
      intro p hp
      simp only [planView, strobesOf_append, List.mem_append] at hp
      rcases hp with h | h
      · exact coherent_transferView rw pins fuel rd rs v p h
      · split at h
        · exact ih _ p h
        · cases h
    | pause ms =>
      intro p hp
      exact ih rd p (by simpa [planView, strobesOf] using hp)

/-- The raw strobes of the forced reset are coherent. -/
theorem coherent_resetView : ∀ p ∈ strobesOf resetView, p.coherent := by
  intro p hp
  simp only [resetView, strobesOf, List.mem_cons, List.mem_singleton] at hp
  rcases hp with h | h | h | h | h
  · subst h; exact Or.inl ⟨rfl, rfl⟩
  · subst h; exact Or.inl ⟨rfl, rfl⟩
  · subst h; exact Or.inl ⟨rfl, rfl⟩
  · subst h; exact Or.inl ⟨rfl, rfl⟩
  · cases h

/-- Every public function entered with E low, and `lcd_init` entered in any
state: a run whose strobes are all coherent. -/
theorem Op.runs_coherent (rw : Bool) (pins : Nat → Nat) (fuel : Nat) (op : Op) (s : Mcu)
    (hE : s.port.testBit HD44780_IO_E = false ∨ op = Op.init) :
    ∃ view, Runs rw s (op.run rw pins fuel s).st view ∧
      ∀ p ∈ strobesOf view, p.coherent := by
  rw [Op.run_eq]
  have hent : ∃ v0, (op.entry rw s).rd = s.rd ∧ Runs rw s (op.entry rw s) v0 ∧
      ∀ p ∈ strobesOf v0, p.coherent := by
    by_cases hi : op = Op.init
    · subst hi
      exact ⟨_, (initReset_runs rw s).1, (initReset_runs rw s).2, coherent_resetView⟩
    · have hE2 : s.port.testBit HD44780_IO_E = false := hE.resolve_right hi
      have he : op.entry rw s = s := by cases op <;> first | rfl | exact absurd rfl hi
      rw [he]
      exact ⟨[], rfl, Runs.refl rw s hE2, fun p hp => by cases hp⟩
  obtain ⟨v0, _, h0, c0⟩ := hent
  obtain ⟨_, h1⟩ := runPlan_runs rw pins fuel op.plan (op.entry rw s) h0.e_low
  refine ⟨_, Runs.trans h0 h1, ?_⟩
  intro p hp
  rw [strobesOf_append, List.mem_append] at hp
  rcases hp with h | h
  · exact c0 p h
  · exact coherent_planView rw pins fuel op.plan _ p h

/-- A sequence of calls entered with E low, or beginning with `lcd_init`: a
run whose strobes are all coherent. -/
theorem runOps_coherent (rw : Bool) (pins : Nat → Nat) (fuel : Nat) (ops : List Op) (s : Mcu)
    (hE : s.port.testBit HD44780_IO_E = false ∨ ops.head? = some Op.init) :
    ∃ view, Runs rw s (runOps rw pins fuel ops s).st view ∧
      ∀ p ∈ strobesOf view, p.coherent := by
  induction ops generalizing s with
  | nil =>
    have hE2 : s.port.testBit HD44780_IO_E = false := by
      rcases hE with h | h
      · exact h
      · cases h
    exact ⟨[], Runs.refl rw s hE2, fun p hp => by cases hp⟩
  | cons op r ih =>
    have hop : s.port.testBit HD44780_IO_E = false ∨ op = Op.init := by
      rcases hE with h | h
      · exact Or.inl h
      · exact Or.inr (by simpa using h)
    obtain ⟨v1, h1, c1⟩ := Op.runs_coherent rw pins fuel op s hop
    cases hres : op.run rw pins fuel s with
    | ret t =>
      rw [hres] at h1
      simp only [Res.st_ret] at h1
      obtain ⟨v2, h2, c2⟩ := ih t (Or.inl h1.e_low)
      refine ⟨v1 ++ v2, ?_, ?_⟩
      · simpa [runOps, hres] using Runs.trans h1 h2
      · intro p hp
        rw [strobesOf_append, List.mem_append] at hp
        rcases hp with h | h
        · exact c1 p h
        · exact c2 p h
    | spin t =>
      rw [hres] at h1
      simp only [Res.st_spin] at h1
      exact ⟨v1, by simpa [runOps, hres] using h1, c1⟩

/-- C17: for every sequence of calls of public functions that begins with
`lcd_init`, from any register contents, every strobe on the bus is either a
write strobe (RW low) with the four data lines configured as outputs, or a
read strobe (RW high) with the four data lines configured as inputs; the
sequence may contain further `lcd_init` calls, and a call that is still
polling ends the sequence. -/
theorem bus_direction_coherent (rw : Bool) (pins : Nat → Nat) (fuel : Nat) (ops : List Op)
    (s : Mcu) :
    ∀ p ∈ strobesOf (busView rw s (runOps rw pins fuel (Op.init :: ops) s).st),
      (p.rw = false ∧ p.dir = 15) ∨ (p.rw = true ∧ p.dir = 0) := by
  obtain ⟨view, hrun, hc⟩ := runOps_coherent rw pins fuel (Op.init :: ops) s (Or.inr rfl)
  rw [hrun.emitted_eq]
  exact hc


set_option maxRecDepth 100000 in
/-- Instance of `bus_direction_coherent`: a read strobe of the run of
`lcd_init` followed by `lcd_char('A')` from power-on registers, busy-flag
build, device ready at once. -/
theorem bus_direction_coherent_witness :
    readStrobe ∈ strobesOf (busView true Mcu.reset
        (runOps true (fun _ => 0) 1 (Op.init :: [Op.char 0x41]) Mcu.reset).st) ∧
    ((readStrobe.rw = false ∧ readStrobe.dir = 15) ∨
      (readStrobe.rw = true ∧ readStrobe.dir = 0)) :=
  ⟨by decide,
   bus_direction_coherent true (fun _ => 0) 1 [Op.char 0x41] Mcu.reset readStrobe (by decide)⟩

/-! ## Frame: bit 7 of port A -/

theorem Frame.same (s : Mcu) : Frame s s := ⟨rfl, rfl⟩

theorem Frame.comp {s t u : Mcu} (h1 : Frame s t) (h2 : Frame t u) : Frame s u :=
  ⟨Eq.trans h2.1 h1.1, Eq.trans h2.2 h1.2⟩

/-- The write half of `write8bits` keeps bit 7 of both registers. -/
theorem frame_write8bits (rw : Bool) (pins : Nat → Nat) (v : Nat) (s : Mcu) :
    Frame s (write8bits rw pins 0 v s).st := by
  cases rw
  · refine ⟨?_, ?_⟩ <;>
    · simp only [write8bits, Res.st, ite_D4, ite_D5, ite_D6, ite_D7, SET_E, CLR_E, wrDDR,
        wrPORT, delay_us, Bool.false_eq_true, if_false, id]
      simp [testBit_bitSet, testBit_bitClr, testBit_putBit, HD44780_IO_E, HD44780_IO_RS,
        HD44780_IO_RW, HD44780_IO_D4, HD44780_IO_D5, HD44780_IO_D6, HD44780_IO_D7]
  · refine ⟨?_, ?_⟩ <;>
    · simp only [write8bits, busyWait, Res.st, ite_D4, ite_D5, ite_D6, ite_D7, SET_E, CLR_E,
        CLR_RW, CLR_RS, wrDDR, wrPORT, delay_us, if_true, id]
      simp [testBit_bitSet, testBit_bitClr, testBit_putBit, HD44780_IO_E, HD44780_IO_RS,
        HD44780_IO_RW, HD44780_IO_D4, HD44780_IO_D5, HD44780_IO_D6, HD44780_IO_D7]

/-- `read8bits` keeps bit 7 of both registers. -/
theorem frame_read8bits (pins : Nat → Nat) (s : Mcu) : Frame s (read8bits pins s).2 := by
  refine ⟨?_, ?_⟩ <;>
  · simp only [read8bits, READ_D4, READ_D5, READ_D6, READ_D7, rdPIN, SET_RW, SET_E, CLR_E,
      wrDDR, wrPORT, delay_us]
    simp [testBit_bitSet, testBit_bitClr, HD44780_IO_E, HD44780_IO_RW, HD44780_IO_D4,
      HD44780_IO_D5, HD44780_IO_D6, HD44780_IO_D7]

/-- The busy-flag loop keeps bit 7 of both registers. -/
theorem frame_busyWait (pins : Nat → Nat) (fuel : Nat) (s : Mcu) :
    Frame s (busyWait pins fuel s).st := by
  induction fuel generalizing s with
  | zero => exact Frame.same s
  | succ n ih =>
    by_cases hb : (read8bits pins s).1 &&& CMD_BUSYFLAG ≠ 0
    · have e : busyWait pins (n + 1) s = busyWait pins n (read8bits pins s).2 := by
        simp only [busyWait, hb, ne_eq, not_false_eq_true, if_true]
      rw [e]
      exact (frame_read8bits pins s).comp (ih _)
    · have e : busyWait pins (n + 1) s = Res.ret (read8bits pins s).2 := by
        simp only [busyWait, hb, if_false]
      rw [e]
      exact frame_read8bits pins s

/-- A byte transfer keeps bit 7 of both registers. -/
theorem frame_transfer (rw : Bool) (pins : Nat → Nat) (fuel : Nat) (rs : Bool) (v : Nat)
    (s : Mcu) : Frame s (transfer rw pins fuel rs v s).st := by
  have hw : ∀ u, Frame u (write8bits rw pins fuel v u).st := by
    intro u
    cases rw
    · rw [write8bits_fixed_eq]; exact frame_write8bits false pins v u
    · rw [write8bits_busy_eq]
      exact (frame_write8bits true pins v u).comp (frame_busyWait pins fuel _)
  cases rs
  · have h0 : Frame s (CLR_RS s) := by
      refine ⟨?_, rfl⟩
      simp [CLR_RS, wrPORT, testBit_bitClr, HD44780_IO_RS]
    exact h0.comp (hw _)
  · have h0 : Frame s (SET_RS s) := by
      refine ⟨?_, rfl⟩
      simp [SET_RS, wrPORT, testBit_bitSet, HD44780_IO_RS]
    exact h0.comp (hw _)

/-- A transfer sequence keeps bit 7 of both registers. -/
theorem frame_runPlan (rw : Bool) (pins : Nat → Nat) (fuel : Nat) (steps : List Step)
    (s : Mcu) : Frame s (runPlan rw pins fuel steps s).st := by
  induction steps generalizing s with
  | nil => exact Frame.same s
  | cons st r ih =>
    cases st with
    | xfer rs v =>
      have h := frame_transfer rw pins fuel rs v s
      cases hres : transfer rw pins fuel rs v s with
      | ret t =>
        rw [hres] at h
        simpa [runPlan, hres] using h.comp (ih t)
      | spin t =>
        rw [hres] at h
        simpa [runPlan, hres] using h
    | pause ms =>
      have h0 : Frame s (delay_ms ms s) := ⟨rfl, rfl⟩
      exact h0.comp (ih _)

/-- The first part of `lcd_init` keeps bit 7 of both registers. -/
theorem frame_initReset (rw : Bool) (s : Mcu) : Frame s (initReset rw s) := by
  have hr : List.range 3 = [0, 1, 2] := rfl
  cases rw <;> refine ⟨?_, ?_⟩ <;>
  · simp only [initReset, hr, List.foldl_cons, List.foldl_nil, SET_D4, SET_D5, CLR_D4, CLR_D6,
      CLR_D7, SET_E, CLR_E, CLR_RS, CLR_RW, wrDDR, wrPORT, delay_us, HD44780.delay_ms,
      Bool.false_eq_true, if_false, if_true, id]
    simp [testBit_bitSet, testBit_bitClr, HD44780_IO_E, HD44780_IO_RS, HD44780_IO_RW,
      HD44780_IO_D4, HD44780_IO_D5, HD44780_IO_D6, HD44780_IO_D7]

/-- Every public function keeps bit 7 of both registers. -/
theorem frame_op (rw : Bool) (pins : Nat → Nat) (fuel : Nat) (op : Op) (s : Mcu) :
    Frame s (op.run rw pins fuel s).st := by
  rw [Op.run_eq]
  have h0 : Frame s (op.entry rw s) := by
    cases op
    case init => exact frame_initReset rw s
    all_goals exact Frame.same s
  exact h0.comp (frame_runPlan rw pins fuel op.plan _)

/-- C20: the seven lines are bits 0..6 of port A, and every public function,
from any register contents, in either build and whether or not it has
returned within the budget, leaves bit 7 of the port-A output register and of
the port-A direction register as it found them. -/
theorem bit7_untouched (rw : Bool) (pins : Nat → Nat) (fuel : Nat) (op : Op) (s : Mcu) :
    (op.run rw pins fuel s).st.port.testBit 7 = s.port.testBit 7 ∧
    (op.run rw pins fuel s).st.ddr.testBit 7 = s.ddr.testBit 7 ∧
    [HD44780_IO_RS, HD44780_IO_RW, HD44780_IO_E, HD44780_IO_D4, HD44780_IO_D5, HD44780_IO_D6,
      HD44780_IO_D7] = [0, 1, 2, 3, 4, 5, 6] :=
  ⟨(frame_op rw pins fuel op s).1, (frame_op rw pins fuel op s).2, rfl⟩


/-! ## Cursor address and the clear/home delay -/

set_option maxRecDepth 100000 in
theorem testBit7_byte : ∀ b, b < 256 → Nat.testBit b 7 = decide (128 ≤ b) := by
  decide

/-- `lcd_setCursor` as one `write_cmd` call. -/
theorem lcd_setCursor_eq (rw : Bool) (pins : Nat → Nat) (fuel x y : Nat) (s : Mcu) :
    lcd_setCursor rw pins fuel x y s =
      write_cmd rw pins fuel ((0x80 + x + (if y = 1 then 0x40 else 0)) % 256) s := by
  have h := Op.run_eq rw pins fuel (Op.setCursor x y) s
  simpa [Op.run, Op.plan, Op.entry, runPlan, runPlan_nil, Res.bind_ret_right, transfer] using h

/-- C18, counterexample: `lcd_setCursor(0x80, 0)` sends the byte 0x00 and
`lcd_setCursor(0x81, 0)` the byte 0x01 (clear display); bit 7 is clear in
both. -/
theorem setCursor_wraps :
    lcd_setCursor false (fun _ => 0) 0 0x80 0 Mcu.reset =
      write_cmd false (fun _ => 0) 0 0x00 Mcu.reset ∧
    Nat.testBit 0x00 7 = false ∧
    lcd_setCursor false (fun _ => 0) 0 0x81 0 Mcu.reset =
      write_cmd false (fun _ => 0) 0 0x01 Mcu.reset ∧
    Nat.testBit 0x01 7 = false :=
  ⟨rfl, by decide, rfl, by decide⟩

/-- C18, amended: `lcd_setCursor(x, y)` sends the single command byte
`(0x80 + x + base) mod 256`, `base` being 0x40 for `y = 1` and 0x00 otherwise;
for every `y` and every `x < 64` its bit 7 is set; in general bit 7 is set
exactly when `(x + base) mod 256 < 128`. -/
theorem setCursor_bit7 (rw : Bool) (pins : Nat → Nat) (fuel x y : Nat) (s : Mcu)
    (hx : x < 64) :
    lcd_setCursor rw pins fuel x y s =
      write_cmd rw pins fuel ((0x80 + x + (if y = 1 then 0x40 else 0)) % 256) s ∧
    Nat.testBit ((0x80 + x + (if y = 1 then 0x40 else 0)) % 256) 7 = true ∧
    ∀ x2 y2, Nat.testBit ((0x80 + x2 + (if y2 = 1 then 0x40 else 0)) % 256) 7 =
      decide ((x2 + (if y2 = 1 then 0x40 else 0)) % 256 < 128) := by
  refine ⟨lcd_setCursor_eq rw pins fuel x y s, ?_, ?_⟩
  · rw [testBit7_byte _ (Nat.mod_lt _ (by decide))]
    by_cases h : y = 1 <;> simp [h] <;> omega
  · intro x2 y2
    rw [testBit7_byte _ (Nat.mod_lt _ (by decide))]
    by_cases h : y2 = 1 <;> simp [h] <;> omega

/-- Instance of `setCursor_bit7`: `lcd_setCursor(39, 1)` sends 0xE7. -/
theorem setCursor_bit7_witness :
    lcd_setCursor false (fun _ => 0) 0 39 1 Mcu.reset =
      write_cmd false (fun _ => 0) 0 ((0x80 + 39 + (if 1 = 1 then 0x40 else 0)) % 256)
        Mcu.reset ∧
    Nat.testBit ((0x80 + 39 + (if 1 = 1 then 0x40 else 0)) % 256) 7 = true :=
  ⟨(setCursor_bit7 false (fun _ => 0) 0 39 1 Mcu.reset (by decide)).1,
   (setCursor_bit7 false (fun _ => 0) 0 39 1 Mcu.reset (by decide)).2.1⟩

/-- A one-command function followed by a 5 ms delay: bus view and return. -/
theorem cmd_then_pause_runs (rw : Bool) (pins : Nat → Nat) (fuel b : Nat) (s : Mcu)
    (hE : s.port.testBit HD44780_IO_E = false) :
    (runPlan rw pins fuel [Step.xfer false b, Step.pause 5] s).returned
      = (!rw || pollReady pins fuel s.rd) ∧
    busView rw s (runPlan rw pins fuel [Step.xfer false b, Step.pause 5] s).st =
      transferView rw pins fuel s.rd false b ++
        (if !rw || pollReady pins fuel s.rd then [BusEv.wait 5000] else []) := by
  obtain ⟨hret, hrun⟩ := runPlan_runs rw pins fuel [Step.xfer false b, Step.pause 5] s hE
  refine ⟨by simpa [planReady] using hret, ?_⟩
  rw [hrun.emitted_eq]
  simp [planView]

/-- C19: in either build, `lcd_clear` is `write_cmd(0x01)` and `lcd_home` is
`write_cmd(0x02)`, each followed, once the transfer has returned from its own
completion detection (the poll, or the 120 microsecond delay), by a further
delay of 5 ms; on the bus the one transfer is followed by a 5000 microsecond
wait. A run of `lcd_init` that returns shows a 5000 microsecond wait between
the transfer of its clear-display command and the transfer of the
entry-mode-set command. In the fixed-delay build all three return. -/
theorem clear_home_extra_delay (rw : Bool) (pins : Nat → Nat) (fuel : Nat) (s : Mcu)
    (hE : s.port.testBit HD44780_IO_E = false) :
    (lcd_clear rw pins fuel s =
        (write_cmd rw pins fuel 0x01 s).bind (fun t => Res.ret (delay_ms 5 t)) ∧
      (lcd_clear rw pins fuel s).returned = (!rw || pollReady pins fuel s.rd) ∧
      busView rw s (lcd_clear rw pins fuel s).st =
        transferView rw pins fuel s.rd false 0x01 ++
          (if (lcd_clear rw pins fuel s).returned then [BusEv.wait 5000] else [])) ∧
    (lcd_home rw pins fuel s =
        (write_cmd rw pins fuel 0x02 s).bind (fun t => Res.ret (delay_ms 5 t)) ∧
      (lcd_home rw pins fuel s).returned = (!rw || pollReady pins fuel s.rd) ∧
      busView rw s (lcd_home rw pins fuel s).st =
        transferView rw pins fuel s.rd false 0x02 ++
          (if (lcd_home rw pins fuel s).returned then [BusEv.wait 5000] else [])) ∧
    ((lcd_init rw pins fuel s).returned = true →
      busView rw s (lcd_init rw pins fuel s).st =
        resetView ++
        transferView rw pins fuel s.rd false 0x28 ++
        transferView rw pins fuel (transferRd rw pins fuel s.rd) false 0x08 ++
        transferView rw pins fuel
          (transferRd rw pins fuel (transferRd rw pins fuel s.rd)) false 0x01 ++
        [BusEv.wait 5000] ++
        transferView rw pins fuel
          (transferRd rw pins fuel (transferRd rw pins fuel (transferRd rw pins fuel s.rd)))
          false 0x06 ++
        transferView rw pins fuel
          (transferRd rw pins fuel (transferRd rw pins fuel
            (transferRd rw pins fuel (transferRd rw pins fuel s.rd)))) false 0x0C) ∧
    (lcd_clear false pins fuel s).returned = true ∧
    (lcd_home false pins fuel s).returned = true ∧
    (lcd_init false pins fuel s).returned = true := by
  have hc := cmd_then_pause_runs rw pins fuel 0x01 s hE
  have hh := cmd_then_pause_runs rw pins fuel 0x02 s hE
  have ec : runPlan rw pins fuel [Step.xfer false 0x01, Step.pause 5] s =
      lcd_clear rw pins fuel s := (Op.run_eq rw pins fuel Op.clear s).symm
  have eh : runPlan rw pins fuel [Step.xfer false 0x02, Step.pause 5] s =
      lcd_home rw pins fuel s := (Op.run_eq rw pins fuel Op.home s).symm
  rw [ec] at hc
  rw [eh] at hh
  obtain ⟨iret, irun⟩ := lcd_init_runs rw pins fuel s
  refine ⟨⟨rfl, hc.1, ?_⟩, ⟨rfl, hh.1, ?_⟩, ?_, ?_, ?_, ?_⟩
  · rw [hc.2, hc.1]
  · rw [hh.2, hh.1]
  · intro h
    rw [iret] at h
    simp only [initPlan, planReady, Bool.and_eq_true] at h
    obtain ⟨h1, h2, h3, h4, h5, -⟩ := h
    rw [irun.emitted_eq]
    simp only [initPlan, planView, h1, h2, h3, h4, h5, if_true, List.append_assoc,
      List.cons_append, List.nil_append, List.append_nil, Nat.mul_comm]
  · have h := (cmd_then_pause_runs false pins fuel 0x01 s hE).1
    have e : runPlan false pins fuel [Step.xfer false 0x01, Step.pause 5] s =
        lcd_clear false pins fuel s := (Op.run_eq false pins fuel Op.clear s).symm
    rw [e] at h
    simpa using h
  · have h := (cmd_then_pause_runs false pins fuel 0x02 s hE).1
    have e : runPlan false pins fuel [Step.xfer false 0x02, Step.pause 5] s =
        lcd_home false pins fuel s := (Op.run_eq false pins fuel Op.home s).symm
    rw [e] at h
    simpa using h
  · rw [(lcd_init_runs false pins fuel s).1]; exact planReady_fixed _ _ _ _

/-- Instance of `clear_home_extra_delay`: `lcd_home` in the busy-flag build
against a device that reads ready, from power-on registers. -/
theorem clear_home_extra_delay_witness :
    busView true Mcu.reset (lcd_home true (fun _ => 0) 1 Mcu.reset).st =
      transferView true (fun _ => 0) 1 Mcu.reset.rd false 0x02 ++
        (if (lcd_home true (fun _ => 0) 1 Mcu.reset).returned then [BusEv.wait 5000]
          else []) :=
  (clear_home_extra_delay true (fun _ => 0) 1 Mcu.reset (by decide)).2.1.2.2

end HD44780
